import Mathlib

/-!
# Verification of the RON codec core (value model, pretty serializer, transcoder, error model)

Shallow embedding of the repository's source:

* `src/value/mod.rs` — `Value`, `Struct`, `Fields`, `Map`, `Sign`, `Integer`, `Float`
  and the numeric accessors (`as_i64`, …);
* `src/pretty.rs` — the `Formatter`/`Config` pretty-printing state machine;
* `src/ser.rs` — the text serializer driving the formatter from the serde
  write protocol;
* `src/value/transcode_ser.rs` — the transcoder building a `Value` from the
  same write protocol;
* `src/value/de.rs` — the schemaless `Value` deserializer;
* `src/error.rs` — the position-tagged error type and its string round-trip.

Machine integers are modelled as `Nat`/`Int` with explicit range side
conditions (`u128` magnitudes are `Nat` that well-formed values keep below
`2^128`, `f64` values are represented by their 64-bit pattern below `2^64`).
Byte strings are `List Nat`, text is `List Char`.  A Rust panic (overflowing
arithmetic with debug assertions on, out-of-range slicing, failed `assert!`)
is modelled by an explicit `Option`/dedicated constructor, never by a stub
value.
-/

set_option maxRecDepth 40000

namespace Ron

/-! ## Byte-level text utilities

The serializer writes bytes (`io::Write`).  `write!` emits the UTF-8 encoding
of formatted text; `lexical` and `base64` emit raw ASCII bytes.  We model all
output as `List Nat` of byte values.
-/

/-- UTF-8 encoding of one unicode scalar value (Rust `char`), as byte values.
`Char` carries the scalar-value invariant (no surrogates, `< 0x110000`). -/
def utf8EncodeChar (c : Char) : List Nat :=
  let n := c.toNat
  if n < 128 then [n]
  else if n < 2048 then [192 + n / 64, 128 + n % 64]
  else if n < 65536 then [224 + n / 4096, 128 + n / 64 % 64, 128 + n % 64]
  else [240 + n / 262144, 128 + n / 4096 % 64, 128 + n / 64 % 64, 128 + n % 64]

/-- UTF-8 encoding of a text (the bytes `write!` emits for a `str`). -/
def utf8Encode (cs : List Char) : List Nat :=
  (cs.map utf8EncodeChar).flatten

/-- The byte string of an ASCII Lean string literal (used to state concrete
expected outputs). -/
def asciiBytes (s : String) : List Nat :=
  utf8Encode s.data

/-- Decimal digits (ASCII bytes, most significant first) of a natural number:
the text `lexical::ToLexical::to_lexical` produces for an unsigned integer.
`lexical` is an external crate; the format the spec assigns to it is plain
decimal digits. -/
def decimalBytes (n : Nat) : List Nat :=
  if _h : n < 10 then [48 + n] else decimalBytes (n / 10) ++ [48 + n % 10]
decreasing_by exact Nat.div_lt_self (by omega) (by omega)

/-- Lowercase hexadecimal digits (ASCII codes, most significant first) of a
natural number, as `format!("{:x}", n)` produces. -/
def hexChars (n : Nat) : List Char :=
  let digit : Nat → Char := fun d => if d < 10 then Char.ofNat (48 + d) else Char.ofNat (87 + d)
  if _h : n < 16 then [digit n] else hexChars (n / 16) ++ [digit (n % 16)]
decreasing_by exact Nat.div_lt_self (by omega) (by omega)

/-- One character of Rust `escape_debug` output (`char::escape_debug_ext`):
tab, carriage return, newline, backslash and both quotes are escaped with a
backslash; other printable characters pass through; the rest become
`\u{<hex>}`.  `printable` abstracts Rust's Unicode printability table
(`char::is_printable`, generated Unicode data external to this repository,
also covering the grapheme-extend special cases). -/
def escapeDebugChar (printable : Char → Bool) (c : Char) : List Char :=
  if c = '\t' then ['\\', 't']
  else if c = '\r' then ['\\', 'r']
  else if c = '\n' then ['\\', 'n']
  else if c = '\\' then ['\\', '\\']
  else if c = '\'' then ['\\', '\'']
  else if c = '"' then ['\\', '"']
  else if printable c then [c]
  else '\\' :: 'u' :: '\x7b' :: (hexChars c.toNat ++ ['\x7d'])

/-- `str::escape_debug`: per-character debug escaping. -/
def escapeDebugStr (printable : Char → Bool) (s : List Char) : List Char :=
  (s.map (escapeDebugChar printable)).flatten

/-- The standard base64 alphabet (`base64::STANDARD`), as ASCII codes:
`A`–`Z`, `a`–`z`, `0`–`9`, `+`, `/`. -/
def base64Alphabet : List Nat :=
  (List.range 26).map (fun i => 65 + i) ++ (List.range 26).map (fun i => 97 + i) ++
    (List.range 10).map (fun i => 48 + i) ++ [43, 47]

/-- The alphabet character for a 6-bit group. -/
def base64Digit (n : Nat) : Nat :=
  base64Alphabet.getD n 65

/-- Standard base64 with `=` padding (ASCII 61) of a byte string: the model of
`base64::encode_config_buf(v, base64::STANDARD, ..)` (external crate; the spec
assigns it standard-alphabet base64). -/
def base64Bytes : List Nat → List Nat
  | [] => []
  | [b1] => [base64Digit (b1 / 4), base64Digit (b1 % 4 * 16), 61, 61]
  | [b1, b2] =>
      [base64Digit (b1 / 4), base64Digit (b1 % 4 * 16 + b2 / 16),
        base64Digit (b2 % 16 * 4), 61]
  | b1 :: b2 :: b3 :: rest =>
      base64Digit (b1 / 4) :: base64Digit (b1 % 4 * 16 + b2 / 16) ::
        base64Digit (b2 % 16 * 4 + b3 / 64) :: base64Digit (b3 % 64) :: base64Bytes rest

/-! ## Numeric model -/

/-- `Sign` (src/value/mod.rs): carried independently of the magnitude. -/
inductive Sign where
  | positive
  | negative
deriving DecidableEq, Repr

/-- `Integer` (src/value/mod.rs): magnitude stored as a `u128`.  The `raw`
field is a `Nat`; well-formed values satisfy `raw < 2^128`. -/
structure Integer where
  raw : Nat
deriving DecidableEq, Repr

/-- `Float` (src/value/mod.rs) stores an `f64`.  `f64::to_bits` is a bijection
between `f64` values and `u64`, and every operation the source defines on
`Float` (`eq`, `cmp`, `hash`) goes through `to_bits`, so we represent the
stored float by its 64-bit pattern; well-formed values satisfy
`bits < 2^64`. -/
structure Float where
  bits : Nat
deriving DecidableEq, Repr

/-- Reinterpretation of a `u64` bit pattern as an `i64`
(Rust `as i64` on a `u64`). -/
def u64AsI64 (u : Nat) : Int :=
  if u < 2 ^ 63 then (u : Int) else (u : Int) - 2 ^ 64

/-- `i64::cmp` / `Ord` on `Int`: three-way comparison. -/
def cmpInt (x y : Int) : Ordering :=
  if x < y then .lt else if x = y then .eq else .gt

/-- `impl PartialEq for Float` (src/value/mod.rs:189-193):
`self.raw.to_bits() == other.raw.to_bits()`. -/
def Float.beq (f g : Float) : Bool :=
  f.bits == g.bits

/-- `impl Ord for Float` (src/value/mod.rs:199-203):
`(self.raw.to_bits() as i64).cmp(&(other.raw.to_bits() as i64))`. -/
def Float.cmp (f g : Float) : Ordering :=
  cmpInt (u64AsI64 f.bits) (u64AsI64 g.bits)

/-- `impl Hash for Float` (src/value/mod.rs:204-208):
`state.write_i64(self.raw.to_bits() as i64)` — the data fed to the hasher. -/
def Float.hashData (f : Float) : Int :=
  u64AsI64 f.bits

/-- `Integer::as_int::<u64>` (src/value/mod.rs:269-274 via `TryInto<u64>` for
`u128`): succeeds exactly when the magnitude fits in 64 bits. -/
def Integer.asU64 (i : Integer) : Option Nat :=
  if i.raw < 2 ^ 64 then some i.raw else none

/-- `Integer::as_int::<u128>`: the stored `u128` itself. -/
def Integer.asU128 (i : Integer) : Option Nat :=
  if i.raw < 2 ^ 128 then some i.raw else none

/-! ## Error model (src/error.rs, src/parse.rs) -/

/-- `Position` (src/parse.rs): `line` and `col` are `usize`. -/
structure Position where
  line : Nat
  col : Nat
deriving DecidableEq, Repr

/-- `Position::default()`. -/
def Position.origin : Position := ⟨0, 0⟩

/-- Rust `str::parse::<usize>` on a byte string: an optional leading `+`, then
one or more ASCII digits, and the value must fit in a 64-bit `usize`
(otherwise the parse errors). -/
def parseUsize (s : List Nat) : Option Nat :=
  let digits := match s with
    | 43 :: rest => rest
    | _ => s
  if digits.isEmpty then none
  else if digits.all (fun b => decide (48 ≤ b) && decide (b ≤ 57)) then
    let v := digits.foldl (fun acc b => acc * 10 + (b - 48)) 0
    if v < 2 ^ 64 then some v else none
  else none

/-- Result of `Error::custom`: either a position/message pair (the `code` is
always `Code::Message`) or a Rust panic. -/
inductive CustomResult where
  | panicked
  | ok (pos : Position) (msg : List Nat)
deriving DecidableEq, Repr

/-- `Error::custom` (src/error.rs:69-86), at byte level (Rust `String.find`
returns byte indices; this model treats every index as a character boundary,
which is exact for ASCII messages).  `colon2` is found inside the tail
`msg[colon1 + 1..]`, so it is an index relative to `colon1 + 1`; the source
then uses it as an absolute index.  Rust panics when slicing a string with
`start > end`, modelled by `.panicked` (for the inputs below, the end of the
slice never exceeds the length, and `replace_range(..=colon2, "")` is
`drop (colon2 + 1)`). -/
def customError (msg : List Nat) : CustomResult :=
  match msg.findIdx? (fun b => b == 58) with
  | none => .ok .origin msg
  | some colon1 =>
    match (msg.drop (colon1 + 1)).findIdx? (fun b => b == 58) with
    | none => .ok .origin msg
    | some colon2 =>
      match parseUsize (msg.take colon1) with
      | none => .ok .origin msg
      | some line =>
        if colon1 + 1 > colon2 then .panicked
        else
          match parseUsize ((msg.take colon2).drop (colon1 + 1)) with
          | none => .ok .origin msg
          | some col => .ok ⟨line, col⟩ (msg.drop (colon2 + 1))

/-- `impl Display for Error` (src/error.rs:46-54) for a `Code::Message` error:
`"{line}:{col}: {message}"` when the position differs from the default,
otherwise just the message. -/
def displayError (pos : Position) (msg : List Nat) : List Nat :=
  if pos ≠ Position.origin then
    decimalBytes pos.line ++ [58] ++ decimalBytes pos.col ++ [58, 32] ++ msg
  else msg

/-! ## The value tree (src/value/mod.rs) -/

mutual

/-- `Value` (src/value/mod.rs): the dynamic RON value tree.  `Map<Value,Value>`
iterates its entries in insertion order and compares/hashes by that iteration
order (`self.iter().eq(other.iter())`), so it is modelled by its entry list;
`String` is its character list, `Bytes` its byte list.  `&'static str` struct
and field names are character lists. -/
inductive Value where
  | struct (s : Struct)
  | map (entries : List (Value × Value))
  | array (xs : List Value)
  | string (s : List Char)
  | bytes (bs : List Nat)
  | bool (b : Bool)
  | signed (sign : Sign) (int : Integer)
  | unsigned (int : Integer)
  | float (f : Float)
  | char (c : Char)

/-- `Struct` (src/value/mod.rs). -/
inductive Struct where
  | mk (name : Option (List Char)) (fields : Option Fields)

/-- `Fields` (src/value/mod.rs). -/
inductive Fields where
  | named (fs : List (List Char × Value))
  | unnamed (vs : List Value)

end

mutual

/-- `PartialEq` on `Value` (derived structurally in src/value/mod.rs, with the
custom pointwise-iterator equality for `Map` and bit-pattern equality for
`Float`): the executable equality `IndexMap` uses on keys. -/
def Value.beq : Value → Value → Bool
  | .struct s1, .struct s2 => Struct.beq s1 s2
  | .map m1, .map m2 => entriesBeq m1 m2
  | .array xs1, .array xs2 => valuesBeq xs1 xs2
  | .string s1, .string s2 => s1 == s2
  | .bytes b1, .bytes b2 => b1 == b2
  | .bool b1, .bool b2 => b1 == b2
  | .signed sg1 i1, .signed sg2 i2 => sg1 == sg2 && i1.raw == i2.raw
  | .unsigned i1, .unsigned i2 => i1.raw == i2.raw
  | .float f1, .float f2 => Float.beq f1 f2
  | .char c1, .char c2 => c1 == c2
  | _, _ => false

/-- `PartialEq` on `Struct` (derived). -/
def Struct.beq : Struct → Struct → Bool
  | .mk n1 f1, .mk n2 f2 =>
    (match n1, n2 with
      | some a, some b => a == b
      | none, none => true
      | _, _ => false) &&
    (match f1, f2 with
      | some a, some b => Fields.beq a b
      | none, none => true
      | _, _ => false)

/-- `PartialEq` on `Fields` (derived). -/
def Fields.beq : Fields → Fields → Bool
  | .named fs1, .named fs2 => namedBeq fs1 fs2
  | .unnamed vs1, .unnamed vs2 => valuesBeq vs1 vs2
  | _, _ => false

/-- Pointwise equality of map entry sequences (`Iterator::eq` over
`(key, value)` pairs). -/
def entriesBeq : List (Value × Value) → List (Value × Value) → Bool
  | [], [] => true
  | (k1, v1) :: r1, (k2, v2) :: r2 => Value.beq k1 k2 && Value.beq v1 v2 && entriesBeq r1 r2
  | _, _ => false

/-- Pointwise equality of value sequences. -/
def valuesBeq : List Value → List Value → Bool
  | [], [] => true
  | v1 :: r1, v2 :: r2 => Value.beq v1 v2 && valuesBeq r1 r2
  | _, _ => false

/-- Pointwise equality of named field sequences. -/
def namedBeq : List (List Char × Value) → List (List Char × Value) → Bool
  | [], [] => true
  | (n1, v1) :: r1, (n2, v2) :: r2 => n1 == n2 && Value.beq v1 v2 && namedBeq r1 r2
  | _, _ => false

end

/-- `indexmap::IndexMap::insert` on the entry sequence: an existing key (by
`PartialEq`) has its value replaced in place, a new key is appended. -/
def indexInsert (k v : Value) : List (Value × Value) → List (Value × Value)
  | [] => [(k, v)]
  | (k', v') :: rest =>
      if Value.beq k' k then (k', v) :: rest else (k', v') :: indexInsert k v rest

/-- `FromIterator` for `Map` (src/value/mod.rs:149-155): collecting pairs into
an `IndexMap` inserts them in order. -/
def mapFromPairs (pairs : List (Value × Value)) : List (Value × Value) :=
  pairs.foldl (fun acc kv => indexInsert kv.1 kv.2 acc) []

/-- `i64::MAX` as `u64` (src/value/mod.rs:386). -/
def I64_MAX_AS_U64 : Nat := 2 ^ 63 - 1

/-- `i64::MIN` as `u64` (src/value/mod.rs:387). -/
def I64_MIN_AS_U64 : Nat := 2 ^ 63

/-- `i128::MAX` as `u128` (src/value/mod.rs:388). -/
def I128_MAX_AS_U128 : Nat := 2 ^ 127 - 1

/-- `i128::MIN` as `u128` (src/value/mod.rs:389). -/
def I128_MIN_AS_U128 : Nat := 2 ^ 127

/-- `Value::as_i64` (src/value/mod.rs:334-347).  For `Signed(Positive, _)` and
`Unsigned(_)`: `as_int::<u64>` then `try_into::<i64>`.  For
`Signed(Negative, _)`: magnitudes up to `i64::MAX` negate; the magnitude
`2^63` becomes `i64::MIN` (`u as i64` wraps); anything else is `None`. -/
def Value.asI64 : Value → Option Int
  | .signed .positive int | .unsigned int =>
      (int.asU64).bind fun u => if u ≤ I64_MAX_AS_U64 then some (u : Int) else none
  | .signed .negative int =>
      (int.asU64).bind fun u =>
        if u ≤ I64_MAX_AS_U64 then some (-(u : Int))
        else if u = I64_MIN_AS_U64 then some (-(2 ^ 63 : Int))
        else none
  | _ => none

/-- `Value::as_i128` (src/value/mod.rs:356-369), same shape one width up. -/
def Value.asI128 : Value → Option Int
  | .signed .positive int | .unsigned int =>
      (int.asU128).bind fun u => if u ≤ I128_MAX_AS_U128 then some (u : Int) else none
  | .signed .negative int =>
      (int.asU128).bind fun u =>
        if u ≤ I128_MAX_AS_U128 then some (-(u : Int))
        else if u = I128_MIN_AS_U128 then some (-(2 ^ 127 : Int))
        else none
  | _ => none

/-- `Value::as_u64` (src/value/mod.rs:327-332). -/
def Value.asU64 : Value → Option Nat
  | .signed .positive int | .unsigned int => int.asU64
  | _ => none

/-- `Value::as_u128` (src/value/mod.rs:349-354). -/
def Value.asU128 : Value → Option Nat
  | .signed .positive int | .unsigned int => int.asU128
  | _ => none

/-! ## Formatter (src/pretty.rs) -/

/-- `Indent` (src/pretty.rs): the count is a `u8`, so at most 255; its
`Display` slices a 255-glyph table, which therefore never panics. -/
inductive Indent where
  | spaces (count : Nat)
  | tabs (count : Nat)
deriving DecidableEq, Repr

/-- The bytes `Display for Indent` emits: `count` copies of the glyph. -/
def Indent.bytes : Indent → List Nat
  | .spaces count => List.replicate count 32
  | .tabs count => List.replicate count 9

/-- `Config` (src/pretty.rs): `depth_limit` is a `usize`. -/
structure Config where
  depthLimit : Nat
  indent : Indent
deriving DecidableEq, Repr

/-- `Config::default()`: `depth_limit = usize::MAX`, `indent = Spaces(4)`. -/
def Config.default : Config := ⟨2 ^ 64 - 1, .spaces 4⟩

/-- The mutable formatter state threaded through a serialization
(src/pretty.rs `Formatter`: `depth` and `not_first`; the scratch buffer only
feeds `lexical`/`base64` and holds no cross-call information). -/
structure FmtState where
  depth : Nat
  notFirst : Bool
deriving DecidableEq, Repr

/-- `Formatter::default()` starts at depth 0 with `not_first = false`. -/
def FmtState.init : FmtState := ⟨0, false⟩

/-- `Config::write_space` (src/pretty.rs:94-100): a single space only when
`depth_limit > 0`, otherwise nothing. -/
def Config.writeSpace (cfg : Config) : List Nat :=
  if cfg.depthLimit > 0 then [32] else []

/-- `Config::write_indent` (src/pretty.rs:102-112): beyond the depth limit a
`write_space`; otherwise a newline followed by `depth` copies of the indent
glyphs. -/
def Config.writeIndent (cfg : Config) (depth : Nat) : List Nat :=
  if depth > cfg.depthLimit then cfg.writeSpace
  else 10 :: (List.replicate depth cfg.indent.bytes).flatten

/-- `Formatter::write_string` (src/pretty.rs:123-125):
`"<debug-escaped text>"`, written as UTF-8.  `printable` abstracts the
Unicode printability table (see `escapeDebugChar`). -/
def Formatter.writeString (printable : Char → Bool) (v : List Char) : List Nat :=
  [34] ++ utf8Encode (escapeDebugStr printable v) ++ [34]

/-- `Formatter::write_bytes` (src/pretty.rs:127-131): `b"<base64>"`. -/
def Formatter.writeBytes (v : List Nat) : List Nat :=
  [98, 34] ++ base64Bytes v ++ [34]

/-- `Formatter::write_bool` (src/pretty.rs:133-135): `true` / `false`. -/
def Formatter.writeBool (v : Bool) : List Nat :=
  if v then asciiBytes "true" else asciiBytes "false"

/-- `Formatter::write_unsigned` (src/pretty.rs:149-152): decimal digits via
`lexical`. -/
def Formatter.writeUnsigned (v : Integer) : List Nat :=
  decimalBytes v.raw

/-- `Formatter::write_signed` (src/pretty.rs:137-147): an always-present
`+`/`-` then the magnitude's digits. -/
def Formatter.writeSigned (sign : Sign) (v : Integer) : List Nat :=
  (match sign with
    | .positive => [43]
    | .negative => [45]) ++ Formatter.writeUnsigned v

/-- `Formatter::write_float` (src/pretty.rs:154-157): `floatText` abstracts
`lexical`'s shortest round-trip rendering of the `f64` with the given bit
pattern (an external crate; the spec only constrains its output format). -/
def Formatter.writeFloat (floatText : Nat → List Nat) (bits : Nat) : List Nat :=
  floatText bits

/-- `Formatter::write_char` (src/pretty.rs:159-161): `'<debug-escaped>'`. -/
def Formatter.writeChar (printable : Char → Bool) (v : Char) : List Nat :=
  [39] ++ utf8Encode (escapeDebugChar printable v) ++ [39]

/-- `Formatter::write_unit` (src/pretty.rs:163-169): the bare name, or `()`. -/
def Formatter.writeUnit (v : Option (List Char)) : List Nat :=
  match v with
  | some v => utf8Encode v
  | none => [40, 41]

/-- `Formatter::begin_struct` (src/pretty.rs:171-178): reset `not_first`,
increment depth, emit the optional name and `(`. -/
def Formatter.beginStruct (v : Option (List Char)) (st : FmtState) : List Nat × FmtState :=
  ((match v with
    | some v => utf8Encode v
    | none => []) ++ [40],
   ⟨st.depth + 1, false⟩)

/-- `Formatter::begin_struct_field` (src/pretty.rs:180-194): a separating
comma when not first, the indent, and `name:` plus a configured space when
named. -/
def Formatter.beginStructField (cfg : Config) (v : Option (List Char)) (st : FmtState) :
    List Nat :=
  (if st.notFirst then [44] else []) ++ cfg.writeIndent st.depth ++
    (match v with
      | some v => utf8Encode v ++ [58] ++ cfg.writeSpace
      | none => [])

/-- `Formatter::end_struct_field` (src/pretty.rs:196-200): sets `not_first`. -/
def Formatter.endStructField (st : FmtState) : FmtState :=
  ⟨st.depth, true⟩

/-- `Formatter::end_struct` (src/pretty.rs:202-209): decrement depth, indent
before the closing bracket only if an element was written, emit `)`.  The
depth decrement is `usize` subtraction; balanced begin/end pairs keep it from
underflowing (modelled by truncated `Nat` subtraction). -/
def Formatter.endStruct (cfg : Config) (st : FmtState) : List Nat × FmtState :=
  ((if st.notFirst then cfg.writeIndent (st.depth - 1) else []) ++ [41],
   ⟨st.depth - 1, true⟩)

/-- `Formatter::begin_map` (src/pretty.rs:211-215). -/
def Formatter.beginMap (st : FmtState) : List Nat × FmtState :=
  ([123], ⟨st.depth + 1, false⟩)

/-- `Formatter::begin_map_key` (src/pretty.rs:217-222). -/
def Formatter.beginMapKey (cfg : Config) (st : FmtState) : List Nat :=
  (if st.notFirst then [44] else []) ++ cfg.writeIndent st.depth

/-- `Formatter::end_map_key` (src/pretty.rs:224-228). -/
def Formatter.endMapKey (st : FmtState) : FmtState :=
  ⟨st.depth, true⟩

/-- `Formatter::begin_map_value` (src/pretty.rs:230-233): `:` and a
configured space. -/
def Formatter.beginMapValue (cfg : Config) : List Nat :=
  [58] ++ cfg.writeSpace

/-- `Formatter::end_map_value` (src/pretty.rs:235-239). -/
def Formatter.endMapValue (st : FmtState) : FmtState :=
  ⟨st.depth, true⟩

/-- `Formatter::end_map` (src/pretty.rs:241-248). -/
def Formatter.endMap (cfg : Config) (st : FmtState) : List Nat × FmtState :=
  ((if st.notFirst then cfg.writeIndent (st.depth - 1) else []) ++ [125],
   ⟨st.depth - 1, true⟩)

/-- `Formatter::begin_array` (src/pretty.rs:250-254). -/
def Formatter.beginArray (st : FmtState) : List Nat × FmtState :=
  ([91], ⟨st.depth + 1, false⟩)

/-- `Formatter::begin_array_member` (src/pretty.rs:256-261). -/
def Formatter.beginArrayMember (cfg : Config) (st : FmtState) : List Nat :=
  (if st.notFirst then [44] else []) ++ cfg.writeIndent st.depth

/-- `Formatter::end_array_member` (src/pretty.rs:263-267). -/
def Formatter.endArrayMember (st : FmtState) : FmtState :=
  ⟨st.depth, true⟩

/-- `Formatter::end_array` (src/pretty.rs:269-276). -/
def Formatter.endArray (cfg : Config) (st : FmtState) : List Nat × FmtState :=
  ((if st.notFirst then cfg.writeIndent (st.depth - 1) else []) ++ [93],
   ⟨st.depth - 1, true⟩)

/-! ## The serde write protocol and the text serializer (src/ser.rs)

A structured source is whatever drives the serde `Serializer` trait; its
possible call trees are the inductive `SerInput`.  Narrow integer widths
delegate to the 128-bit entry points losslessly (`v.into()`), so every
signed entry point shares `serialize_i128` and every unsigned one
`serialize_u128`.  `f32` inputs widen to `f64` (a bit-pattern conversion
performed by Rust, outside this model).  Map contents are modelled at
`serialize_entry` granularity (serde's default `serialize_entry` forwards to
`serialize_key` then `serialize_value`, which is exactly how the text
serializer's `SerializeMap` receives them). -/

inductive SerInput where
  | bool (b : Bool)
  | i8 (v : Int)
  | i16 (v : Int)
  | i32 (v : Int)
  | i64 (v : Int)
  | i128 (v : Int)
  | u8 (v : Nat)
  | u16 (v : Nat)
  | u32 (v : Nat)
  | u64 (v : Nat)
  | u128 (v : Nat)
  | f64 (bits : Nat)
  | char (c : Char)
  | str (s : List Char)
  | bytes (bs : List Nat)
  | none
  | some (v : SerInput)
  | unit
  | unitStruct (name : List Char)
  | unitVariant (name : List Char) (variantIndex : Nat) (variant : List Char)
  | newtypeStruct (name : List Char) (v : SerInput)
  | newtypeVariant (name : List Char) (variantIndex : Nat) (variant : List Char) (v : SerInput)
  | seq (xs : List SerInput)
  | tuple (xs : List SerInput)
  | tupleStruct (name : List Char) (xs : List SerInput)
  | tupleVariant (name : List Char) (variantIndex : Nat) (variant : List Char)
      (xs : List SerInput)
  | map (entries : List (SerInput × SerInput))
  | struct (name : List Char) (fields : List (List Char × SerInput))
  | structVariant (name : List Char) (variantIndex : Nat) (variant : List Char)
      (fields : List (List Char × SerInput))

/-- `serialize_i128` of the text serializer (src/ser.rs:49-58): `+`/`-` by
`v >= 0`, then the digits of `v.abs() as u128`.  `.abs()` of `i128::MIN`
overflows: with overflow checks on it panics (that mode is
`absI128Checked` below); with them off it wraps, and the `u128` cast of the
wrapped value is still the magnitude `2^127`, i.e. `Int.natAbs` — the bytes
below are what the non-panicking mode emits for every input. -/
def serializeI128Bytes (v : Int) : List Nat :=
  Formatter.writeSigned (if 0 ≤ v then .positive else .negative) ⟨v.natAbs⟩

variable (printable : Char → Bool) (floatText : Nat → List Nat) (cfg : Config)

mutual

/-- One call of `Serialize::serialize` against the text serializer
(`impl ser::Serializer for &mut Serializer`, src/ser.rs:14-225), returning the
bytes written and the formatter state after the call. -/
def serValue : SerInput → FmtState → List Nat × FmtState
  | .bool b, st => (Formatter.writeBool b, st)
  | .i8 v, st | .i16 v, st | .i32 v, st | .i64 v, st | .i128 v, st =>
      (serializeI128Bytes v, st)
  | .u8 v, st | .u16 v, st | .u32 v, st | .u64 v, st | .u128 v, st =>
      (Formatter.writeUnsigned ⟨v⟩, st)
  | .f64 bits, st => (Formatter.writeFloat floatText bits, st)
  | .char c, st => (Formatter.writeChar printable c, st)
  | .str s, st => (Formatter.writeString printable s, st)
  | .bytes bs, st => (Formatter.writeBytes bs, st)
  | .none, st => (Formatter.writeUnit (Option.some ('N' :: 'o' :: 'n' :: 'e' :: [])), st)
  | .some v, st =>
      -- serialize_some → serialize_newtype_variant("Option", 1, "Some", v)
      let p1 := Formatter.beginStruct (Option.some ('S' :: 'o' :: 'm' :: 'e' :: [])) st
      let o2 := Formatter.beginStructField cfg Option.none p1.2
      let p3 := serValue v p1.2
      let st4 := Formatter.endStructField p3.2
      let p5 := Formatter.endStruct cfg st4
      (p1.1 ++ o2 ++ p3.1 ++ p5.1, p5.2)
  | .unit, st => (Formatter.writeUnit Option.none, st)
  | .unitStruct name, st => (Formatter.writeUnit (Option.some name), st)
  | .unitVariant _ _ variant, st => (Formatter.writeUnit (Option.some variant), st)
  | .newtypeStruct _ v, st =>
      -- newtype structs are transparent wrappers
      serValue v st
  | .newtypeVariant _ _ variant v, st =>
      let p1 := Formatter.beginStruct (Option.some variant) st
      let o2 := Formatter.beginStructField cfg Option.none p1.2
      let p3 := serValue v p1.2
      let st4 := Formatter.endStructField p3.2
      let p5 := Formatter.endStruct cfg st4
      (p1.1 ++ o2 ++ p3.1 ++ p5.1, p5.2)
  | .seq xs, st =>
      let p1 := Formatter.beginArray st
      let p2 := serSeqElements xs p1.2
      let p3 := Formatter.endArray cfg p2.2
      (p1.1 ++ p2.1 ++ p3.1, p3.2)
  | .tuple xs, st =>
      let p1 := Formatter.beginStruct Option.none st
      let p2 := serTupleElements xs p1.2
      let p3 := Formatter.endStruct cfg p2.2
      (p1.1 ++ p2.1 ++ p3.1, p3.2)
  | .tupleStruct name xs, st =>
      let p1 := Formatter.beginStruct (Option.some name) st
      let p2 := serTupleElements xs p1.2
      let p3 := Formatter.endStruct cfg p2.2
      (p1.1 ++ p2.1 ++ p3.1, p3.2)
  | .tupleVariant _ _ variant xs, st =>
      let p1 := Formatter.beginStruct (Option.some variant) st
      let p2 := serTupleElements xs p1.2
      let p3 := Formatter.endStruct cfg p2.2
      (p1.1 ++ p2.1 ++ p3.1, p3.2)
  | .map entries, st =>
      let p1 := Formatter.beginMap st
      let p2 := serMapEntries entries p1.2
      let p3 := Formatter.endMap cfg p2.2
      (p1.1 ++ p2.1 ++ p3.1, p3.2)
  | .struct name fields, st =>
      let p1 := Formatter.beginStruct (Option.some name) st
      let p2 := serStructFields fields p1.2
      let p3 := Formatter.endStruct cfg p2.2
      (p1.1 ++ p2.1 ++ p3.1, p3.2)
  | .structVariant _ _ variant fields, st =>
      let p1 := Formatter.beginStruct (Option.some variant) st
      let p2 := serStructFields fields p1.2
      let p3 := Formatter.endStruct cfg p2.2
      (p1.1 ++ p2.1 ++ p3.1, p3.2)

/-- `SerializeSeq::serialize_element` for each element
(src/ser.rs:234-257): wrap in `begin_array_member` / `end_array_member`. -/
def serSeqElements : List SerInput → FmtState → List Nat × FmtState
  | [], st => ([], st)
  | x :: xs, st =>
      let o1 := Formatter.beginArrayMember cfg st
      let p2 := serValue x st
      let st3 := Formatter.endArrayMember p2.2
      let p4 := serSeqElements xs st3
      (o1 ++ p2.1 ++ p4.1, p4.2)

/-- `SerializeTuple::serialize_element` (also tuple structs/variants,
src/ser.rs:259-320): wrap in unnamed `begin_struct_field` /
`end_struct_field`. -/
def serTupleElements : List SerInput → FmtState → List Nat × FmtState
  | [], st => ([], st)
  | x :: xs, st =>
      let o1 := Formatter.beginStructField cfg Option.none st
      let p2 := serValue x st
      let st3 := Formatter.endStructField p2.2
      let p4 := serTupleElements xs st3
      (o1 ++ p2.1 ++ p4.1, p4.2)

/-- `SerializeMap::serialize_key` then `serialize_value` per entry
(src/ser.rs:322-353). -/
def serMapEntries : List (SerInput × SerInput) → FmtState → List Nat × FmtState
  | [], st => ([], st)
  | (k, v) :: rest, st =>
      let o1 := Formatter.beginMapKey cfg st
      let p2 := serValue k st
      let st3 := Formatter.endMapKey p2.2
      let o4 := Formatter.beginMapValue cfg
      let p5 := serValue v st3
      let st6 := Formatter.endMapValue p5.2
      let p7 := serMapEntries rest st6
      (o1 ++ p2.1 ++ o4 ++ p5.1 ++ p7.1, p7.2)

/-- `SerializeStruct::serialize_field` per field (also struct variants,
src/ser.rs:355-397): wrap in named `begin_struct_field` /
`end_struct_field`. -/
def serStructFields : List (List Char × SerInput) → FmtState → List Nat × FmtState
  | [], st => ([], st)
  | (name, v) :: rest, st =>
      let o1 := Formatter.beginStructField cfg (Option.some name) st
      let p2 := serValue v st
      let st3 := Formatter.endStructField p2.2
      let p4 := serStructFields rest st3
      (o1 ++ p2.1 ++ p4.1, p4.2)

end

/-- `to_vec` (src/ser.rs:411-418) with the given formatter configuration:
serialize from a fresh formatter state and collect the bytes.  (`to_writer`
itself always uses `Config::default()`; the `Formatter` supports any
configuration, which is what the depth-limit claims quantify over.) -/
def render (input : SerInput) : List Nat :=
  (serValue printable floatText cfg input FmtState.init).1

/-! ## Transcoder (src/value/transcode_ser.rs)

`to_value` drives the same write protocol into `Value` construction.  The
sign/magnitude split is `(v.abs() as uN)`: `.abs()` overflows on the most
negative value of the width, which panics when overflow checks are on.  The
transcoder is modelled under that checked semantics; `none` is a panic.
(With overflow checks off, `.abs()` wraps and the unsigned cast still
produces the magnitude `Int.natAbs v` — see `serializeI128Bytes`.) -/

/-- `(v.abs() as u64)` for an `i64` under checked overflow semantics:
panics (`none`) exactly at `i64::MIN`. -/
def absU64Checked (v : Int) : Option Nat :=
  if v = -(2 ^ 63) then none else some v.natAbs

/-- `(v.abs() as u128)` for an `i128` under checked overflow semantics:
panics (`none`) exactly at `i128::MIN`. -/
def absU128Checked (v : Int) : Option Nat :=
  if v = -(2 ^ 127) then none else some v.natAbs

/-- The sign chosen by `if v >= 0 { Positive } else { Negative }`. -/
def signOf (v : Int) : Sign :=
  if 0 ≤ v then .positive else .negative

/-- `indexmap::IndexMap::insert` for named fields (`Map<&'static str, Value>`,
used by `Fields::Named` collection). -/
def indexInsertNamed (k : List Char) (v : Value) :
    List (List Char × Value) → List (List Char × Value)
  | [] => [(k, v)]
  | (k', v') :: rest =>
      if k' = k then (k', v) :: rest else (k', v') :: indexInsertNamed k v rest

/-- `FromIterator<(&'static str, Value)>` for `Map` / `Fields::Named`. -/
def namedFromPairs (pairs : List (List Char × Value)) : List (List Char × Value) :=
  pairs.foldl (fun acc kv => indexInsertNamed kv.1 kv.2 acc) []

mutual

/-- `to_value` (src/value/mod.rs:391-396): one `Serialize::serialize` call
against the transcoding serializer (src/value/transcode_ser.rs).  `none` is a
panic (overflowing `.abs()` under checked semantics). -/
def toValue : SerInput → Option Value
  | .bool b => some (.bool b)
  | .i8 v | .i16 v | .i32 v | .i64 v =>
      -- serialize_i8/16/32 delegate to serialize_i64 (lines 25-46)
      (absU64Checked v).map fun m => .signed (signOf v) ⟨m⟩
  | .i128 v =>
      (absU128Checked v).map fun m => .signed (signOf v) ⟨m⟩
  | .u8 v | .u16 v | .u32 v | .u64 v | .u128 v => some (.unsigned ⟨v⟩)
  | .f64 bits => some (.float ⟨bits⟩)
  | .char c => some (.char c)
  | .str s => some (.string s)
  | .bytes bs => some (.bytes bs)
  | .none => some (.struct ⟨some ('N' :: 'o' :: 'n' :: 'e' :: []), none⟩)
  | .some v =>
      (toValue v).map fun inner =>
        .struct ⟨some ('S' :: 'o' :: 'm' :: 'e' :: []), some (.unnamed [inner])⟩
  | .unit => some (.struct ⟨none, none⟩)
  | .unitStruct name => some (.struct ⟨some name, none⟩)
  | .unitVariant _ _ variant => some (.struct ⟨some variant, none⟩)
  | .newtypeStruct _ v => toValue v
  | .newtypeVariant _ _ variant v =>
      (toValue v).map fun inner => .struct ⟨some variant, some (.unnamed [inner])⟩
  | .seq xs => (toValues xs).map fun vs => .array vs
  | .tuple xs => (toValues xs).map fun vs => .struct ⟨none, some (.unnamed vs)⟩
  | .tupleStruct name xs =>
      (toValues xs).map fun vs => .struct ⟨some name, some (.unnamed vs)⟩
  | .tupleVariant _ _ variant xs =>
      (toValues xs).map fun vs => .struct ⟨some variant, some (.unnamed vs)⟩
  | .map entries =>
      -- MapSerializer: serialize_entry pushes `(key, Some(value))` pairs in
      -- call order; `end` collects them into an IndexMap
      (toPairs entries).map fun ps => .map (mapFromPairs ps)
  | .struct name fields =>
      (toNamedPairs fields).map fun fs => .struct ⟨some name, some (.named (namedFromPairs fs))⟩
  | .structVariant _ _ variant fields =>
      (toNamedPairs fields).map fun fs =>
        .struct ⟨some variant, some (.named (namedFromPairs fs))⟩

/-- `SeqSerializer` buffer accumulation (src/value/transcode_ser.rs:235-316). -/
def toValues : List SerInput → Option (List Value)
  | [] => some []
  | x :: xs => do
      let v ← toValue x
      let vs ← toValues xs
      pure (v :: vs)

/-- `MapSerializer` buffer accumulation (src/value/transcode_ser.rs:318-364),
at `serialize_entry` granularity. -/
def toPairs : List (SerInput × SerInput) → Option (List (Value × Value))
  | [] => some []
  | (k, v) :: rest => do
      let k' ← toValue k
      let v' ← toValue v
      let ps ← toPairs rest
      pure ((k', v') :: ps)

/-- `RecSerializer` buffer accumulation (src/value/transcode_ser.rs:366-409). -/
def toNamedPairs : List (List Char × SerInput) → Option (List (List Char × Value))
  | [] => some []
  | (name, v) :: rest => do
      let v' ← toValue v
      let fs ← toNamedPairs rest
      pure ((name, v') :: fs)

end

/-- The `Value::Signed(..)` / `Value::Unsigned(..)` arms of
`impl Serialize for Value` (src/value/ser.rs:18-35) composed with the text
serializer: route through `as_i64`, falling back to `as_i128` (resp.
`as_u64` / `as_u128`); `serialize_i64` widens into `serialize_i128`.  `none`
is the custom "outside i128/u128 range" error. -/
def serializeIntValueBytes : Value → Option (List Nat)
  | .signed sign int =>
      (match (Value.signed sign int).asI64 with
        | some x => some (serializeI128Bytes x)
        | none =>
          match (Value.signed sign int).asI128 with
          | some x => some (serializeI128Bytes x)
          | none => none)
  | .unsigned int =>
      (match (Value.unsigned int).asU64 with
        | some x => some (Formatter.writeUnsigned ⟨x⟩)
        | none =>
          match (Value.unsigned int).asU128 with
          | some x => some (Formatter.writeUnsigned ⟨x⟩)
          | none => none)
  | _ => none

/-! ## Schemaless construction (src/value/de.rs)

`Value`'s `Deserialize` drives `deserialize_any` with a visitor; a
deserializer is a read-callback stream, modelled by the visit-call tree it
reports. -/

inductive DeEvent where
  | bool (b : Bool)
  | i64 (v : Int)
  | i128 (v : Int)
  | u64 (v : Nat)
  | u128 (v : Nat)
  | f64 (bits : Nat)
  | char (c : Char)
  | str (s : List Char)
  | bytes (bs : List Nat)
  | none
  | some (d : DeEvent)
  | unit
  | newtypeStruct (d : DeEvent)
  | seq (xs : List DeEvent)
  | map (entries : List (DeEvent × DeEvent))
  | enum (data : DeEvent)

/-- Outcome of schemaless construction: a panic, an `Error` (whose code is
always `Code::Message`, as built by `Error::custom`), or a `Value`. -/
inductive DeResult where
  | panicked
  | error (pos : Position) (msg : List Nat)
  | ok (v : Value)

/-- Lift the result of `Error::custom` into a `DeResult` error. -/
def DeResult.ofCustom (r : CustomResult) : DeResult :=
  match r with
  | .panicked => .panicked
  | .ok pos msg => .error pos msg

mutual

/-- `<Value as Deserialize>::deserialize` (src/value/de.rs:7-195): the
schemaless visitor absorbing one visit call.  Signed visits split
sign/magnitude with `(v.abs() as uN)` (checked semantics, as in `toValue`);
`visit_enum` fails with `Error::custom("cannot deserialize_any an enum")`. -/
def deserializeAny : DeEvent → DeResult
  | .bool b => .ok (.bool b)
  | .i64 v =>
      match absU64Checked v with
      | Option.some m => .ok (.signed (signOf v) ⟨m⟩)
      | Option.none => .panicked
  | .i128 v =>
      match absU128Checked v with
      | Option.some m => .ok (.signed (signOf v) ⟨m⟩)
      | Option.none => .panicked
  | .u64 v => .ok (.unsigned ⟨v⟩)
  | .u128 v => .ok (.unsigned ⟨v⟩)
  | .f64 bits => .ok (.float ⟨bits⟩)
  | .char c => .ok (.char c)
  | .str s => .ok (.string s)
  | .bytes bs => .ok (.bytes bs)
  | .none => .ok (.struct ⟨Option.some ('N' :: 'o' :: 'n' :: 'e' :: []), Option.none⟩)
  | .some d =>
      match deserializeAny d with
      | .ok inner =>
          .ok (.struct ⟨Option.some ('S' :: 'o' :: 'm' :: 'e' :: []),
            Option.some (.unnamed [inner])⟩)
      | r => r
  | .unit => .ok (.struct ⟨Option.none, Option.none⟩)
  | .newtypeStruct d =>
      match deserializeAny d with
      | .ok inner => .ok (.struct ⟨Option.none, Option.some (.unnamed [inner])⟩)
      | r => r
  | .seq xs =>
      match deserializeSeq xs with
      | .ok v => .ok v
      | r => r
  | .map entries => deserializeMap entries []
  | .enum _ =>
      DeResult.ofCustom (customError (asciiBytes "cannot deserialize_any an enum"))

/-- `visit_seq` (src/value/de.rs:156-168): push each `next_element` into the
array (elements deserialize recursively; the first failure aborts). -/
def deserializeSeq (xs : List DeEvent) : DeResult :=
  match xs with
  | [] => .ok (.array [])
  | x :: rest =>
      match deserializeAny x with
      | .ok v =>
          match deserializeSeq rest with
          | .ok (.array vs) => .ok (.array (v :: vs))
          | .ok v' => .ok v'
          | r => r
      | .panicked => .panicked
      | .error p m => .error p m

/-- `visit_map` (src/value/de.rs:170-182): `IndexMap::insert` each
`next_entry` into the accumulator. -/
def deserializeMap (entries : List (DeEvent × DeEvent)) (acc : List (Value × Value)) :
    DeResult :=
  match entries with
  | [] => .ok (.map acc)
  | (k, v) :: rest =>
      match deserializeAny k with
      | .ok k' =>
          match deserializeAny v with
          | .ok v' => deserializeMap rest (indexInsert k' v' acc)
          | .panicked => .panicked
          | .error p m => .error p m
      | .panicked => .panicked
      | .error p m => .error p m

end

/-! ## IEEE 754 binary64 semantics (for the `Float` ordering claim)

`Float` stores a Rust `f64`; the numeric meaning of a 64-bit pattern is fixed
by IEEE 754 (sign bit, 11 exponent bits, 52 fraction bits).  Finite values
are integer multiples of `2^-1074`, so we decode a non-NaN pattern into
`WithBot (WithTop Int)` scaled by `2^1074`: `⊥`/`⊤` are `-∞`/`+∞`, and the
numeric order of two non-NaN floats is the order of their decodings.  NaN
patterns (exponent field 2047, nonzero fraction) have no numeric value and
are excluded by hypothesis wherever `decodeF64` appears. -/

/-- The 11-bit exponent field. -/
def f64Exp (bits : Nat) : Nat := bits / 2 ^ 52 % 2 ^ 11

/-- The 52-bit fraction field. -/
def f64Frac (bits : Nat) : Nat := bits % 2 ^ 52

/-- NaN: exponent field all ones, fraction nonzero. -/
def f64IsNaN (bits : Nat) : Prop := f64Exp bits = 2047 ∧ f64Frac bits ≠ 0

/-- Magnitude (scaled by `2^1074`) of the 63-bit payload `x` (exponent and
fraction fields, sign removed): subnormals are `frac`, normals
`(2^52 + frac) * 2^(exp - 1)`. -/
def magScaled (x : Nat) : Nat :=
  if x / 2 ^ 52 = 0 then x % 2 ^ 52 else (2 ^ 52 + x % 2 ^ 52) * 2 ^ (x / 2 ^ 52 - 1)

/-- Numeric decoding (scaled by `2^1074`) of a non-NaN `f64` bit pattern
below `2^64`. -/
def decodeF64 (bits : Nat) : WithBot (WithTop Int) :=
  if f64Exp bits = 2047 then
    (if 2 ^ 63 ≤ bits then ⊥ else ((⊤ : WithTop Int) : WithBot (WithTop Int)))
  else if 2 ^ 63 ≤ bits then
    (((-(magScaled (bits - 2 ^ 63) : Int) : Int) : WithTop Int) : WithBot (WithTop Int))
  else (((magScaled bits : Int) : WithTop Int) : WithBot (WithTop Int))

/-- `a < b` as real numbers, for non-NaN patterns `a`, `b`. -/
def f64NumLt (a b : Nat) : Prop := decodeF64 a < decodeF64 b

instance (a b : Nat) : Decidable (f64NumLt a b) := by
  unfold f64NumLt decodeF64
  infer_instance

instance (a : Nat) : Decidable (f64IsNaN a) := by
  unfold f64IsNaN
  infer_instance

/-- `Iterator::eq` over the entry sequences of two `Map`s
(`impl PartialEq for Map`, src/value/mod.rs:176-180): the iterators must agree
pointwise, entry by entry, in iteration (= insertion) order.  Entry equality
is the derived structural `PartialEq` on `(Value, Value)`, modelled by
equality of the embedded values. -/
def iterPointwiseEq : List (Value × Value) → List (Value × Value) → Prop
  | [], [] => True
  | e1 :: r1, e2 :: r2 => e1 = e2 ∧ iterPointwiseEq r1 r2
  | _, _ => False

/-! ## C1 — error display / re-construction round trip -/

/-- **C1** (code bug).  The claim: `Error::custom` applied to the displayed
text of an error with position `(3, 7)` and message `"bad token"` recovers
`(3, 7)` and `"bad token"`.  The code: `Display` renders `"3:7: bad token"`,
but `custom` finds the second colon at index 1 *of the tail after the first
colon* and then slices `msg[colon1 + 1..colon2] = msg[2..1]`, a reversed
range, so re-construction panics instead of recovering the position. -/
theorem C1_display_custom_roundtrip_panics :
    displayError ⟨3, 7⟩ (asciiBytes "bad token") = asciiBytes "3:7: bad token" ∧
    customError (asciiBytes "3:7: bad token") = .panicked := by
  constructor
  · simp [displayError, Position.origin, asciiBytes, utf8Encode, utf8EncodeChar, decimalBytes]
  · simp [customError, asciiBytes, utf8Encode, utf8EncodeChar, parseUsize]

/-! ## C8 — schemaless construction -/

/-- **C8** (confirmed).  Schemaless construction fails with a `Message` error
(built by `Error::custom` from `"cannot deserialize_any an enum"`, which has
no position prefix, so position `(0, 0)`) for every stream reporting an enum
variant; a stream reporting the two unsigned integers 1 and 2 as a sequence
yields `Array([Unsigned(1), Unsigned(2)])`. -/
theorem C8_schemaless_enum_fails_seq_builds :
    (∀ data : DeEvent, deserializeAny (.enum data) =
      .error Position.origin (asciiBytes "cannot deserialize_any an enum")) ∧
    deserializeAny (.seq [.u64 1, .u64 2]) =
      .ok (.array [.unsigned ⟨1⟩, .unsigned ⟨2⟩]) := by
  constructor
  · intro data
    simp [deserializeAny, DeResult.ofCustom, customError, asciiBytes, utf8Encode,
      utf8EncodeChar]
  · simp [deserializeAny, deserializeSeq]

/-! ## C10 — `Value::as_i64` -/

/-- **C10** (confirmed).  `as_i64` returns the magnitude for
`Unsigned`/`Signed(Positive, _)` magnitudes up to `i64::MAX`, `i64::MIN` for
`Signed(Negative, 2^63)`, the negated magnitude for `Signed(Negative, m)`
with `m ≤ i64::MAX`, and `None` everywhere else — never truncating. -/
theorem C10_asI64_exact (m : Nat) (_hm : m < 2 ^ 128) :
    (m ≤ 2 ^ 63 - 1 →
      Value.asI64 (.unsigned ⟨m⟩) = some (m : Int) ∧
      Value.asI64 (.signed .positive ⟨m⟩) = some (m : Int)) ∧
    Value.asI64 (.signed .negative ⟨2 ^ 63⟩) = some (-(2 ^ 63 : Int)) ∧
    (m ≤ 2 ^ 63 - 1 → Value.asI64 (.signed .negative ⟨m⟩) = some (-(m : Int))) ∧
    (2 ^ 63 - 1 < m →
      Value.asI64 (.unsigned ⟨m⟩) = none ∧ Value.asI64 (.signed .positive ⟨m⟩) = none) ∧
    (2 ^ 63 < m → Value.asI64 (.signed .negative ⟨m⟩) = none) ∧
    (∀ s, Value.asI64 (.struct s) = none) ∧
    (∀ es, Value.asI64 (.map es) = none) ∧
    (∀ xs, Value.asI64 (.array xs) = none) ∧
    (∀ s, Value.asI64 (.string s) = none) ∧
    (∀ bs, Value.asI64 (.bytes bs) = none) ∧
    (∀ b, Value.asI64 (.bool b) = none) ∧
    (∀ f, Value.asI64 (.float f) = none) ∧
    (∀ c, Value.asI64 (.char c) = none) := by
  refine ⟨?_, ?_, ?_, ?_, ?_, fun s => rfl, fun es => rfl, fun xs => rfl, fun s => rfl,
    fun bs => rfl, fun b => rfl, fun f => rfl, fun c => rfl⟩
  · intro h
    have h1 : m < 18446744073709551616 := by omega
    have h2 : m ≤ 9223372036854775807 := by omega
    constructor <;>
      simp [Value.asI64, Integer.asU64, I64_MAX_AS_U64, I64_MIN_AS_U64, h1, h2]
  · simp [Value.asI64, Integer.asU64, I64_MAX_AS_U64, I64_MIN_AS_U64]
  · intro h
    have h1 : m < 18446744073709551616 := by omega
    have h2 : m ≤ 9223372036854775807 := by omega
    simp [Value.asI64, Integer.asU64, I64_MAX_AS_U64, I64_MIN_AS_U64, h1, h2]
  · intro h
    have h2 : ¬ m ≤ 9223372036854775807 := by omega
    by_cases h1 : m < 18446744073709551616 <;>
      constructor <;>
        simp [Value.asI64, Integer.asU64, I64_MAX_AS_U64, I64_MIN_AS_U64, h1, h2]
  · intro h
    have h2 : ¬ m ≤ 9223372036854775807 := by omega
    have h3 : m ≠ 9223372036854775808 := by omega
    by_cases h1 : m < 18446744073709551616 <;>
      simp [Value.asI64, Integer.asU64, I64_MAX_AS_U64, I64_MIN_AS_U64, h1, h2, h3]

/-- Witness for C10 at `m = 5`. -/
theorem C10_asI64_exact_witness :
    Value.asI64 (.unsigned ⟨5⟩) = some (5 : Int) ∧
    Value.asI64 (.signed .positive ⟨5⟩) = some (5 : Int) := by
  exact (C10_asI64_exact 5 (by norm_num)).1 (by norm_num)

/-! ## C7 — `Float` identity, hash, total order -/

/-- `cmpInt` returns `lt` exactly for `<`. -/
theorem cmpInt_lt_iff {x y : Int} : cmpInt x y = .lt ↔ x < y := by
  unfold cmpInt
  split
  · simp_all
  · split <;> simp_all <;> omega

/-- `cmpInt` returns `eq` exactly for `=`. -/
theorem cmpInt_eq_iff {x y : Int} : cmpInt x y = .eq ↔ x = y := by
  unfold cmpInt
  split
  · constructor <;> intro h <;> simp_all <;> omega
  · split <;> simp_all

/-- `cmpInt` returns `gt` exactly for `>`. -/
theorem cmpInt_gt_iff {x y : Int} : cmpInt x y = .gt ↔ y < x := by
  unfold cmpInt
  split
  · constructor <;> intro h <;> simp_all <;> omega
  · split <;> constructor <;> intro h <;> simp_all <;> omega

/-- Reinterpreting `u64` patterns as `i64` is injective on patterns below
`2^64`: positive patterns map to `[0, 2^63)`, the rest to `[-2^63, 0)`. -/
theorem u64AsI64_inj {a b : Nat} (_ha : a < 2 ^ 64) (_hb : b < 2 ^ 64)
    (h : u64AsI64 a = u64AsI64 b) : a = b := by
  unfold u64AsI64 at h
  split at h <;> split at h <;> omega

/-- **C7** (confirmed).  `Float` equality is bit-pattern equality (so any NaN
equals itself and distinct NaN encodings differ), equal floats feed the same
data to the hasher, and `cmp` (comparison of the patterns reinterpreted as
`i64`) is a total order on all well-formed `Float`s, NaN or not. -/
theorem C7_float_bit_identity (f g h : Float)
    (hf : f.bits < 2 ^ 64) (hg : g.bits < 2 ^ 64) (_hh : h.bits < 2 ^ 64) :
    (Float.beq f g = true ↔ f.bits = g.bits) ∧
    (Float.beq f g = true → Float.hashData f = Float.hashData g) ∧
    (Float.cmp f g = .eq ↔ f = g) ∧
    (Float.cmp f g = .lt ↔ Float.cmp g f = .gt) ∧
    (Float.cmp f g = .lt → Float.cmp g h = .lt → Float.cmp f h = .lt) ∧
    (Float.cmp f g = .lt ∨ Float.cmp f g = .eq ∨ Float.cmp f g = .gt) := by
  obtain ⟨fb⟩ := f
  obtain ⟨gb⟩ := g
  obtain ⟨hb⟩ := h
  simp only at hf hg _hh
  refine ⟨by simp [Float.beq], ?_, ?_, ?_, ?_, ?_⟩
  · simp only [Float.beq, Float.hashData, beq_iff_eq]
    rintro rfl
    rfl
  · simp only [Float.cmp, cmpInt_eq_iff, Float.mk.injEq]
    exact ⟨fun e => u64AsI64_inj hf hg e, fun e => by rw [e]⟩
  · simp only [Float.cmp, cmpInt_lt_iff, cmpInt_gt_iff]
  · simp only [Float.cmp, cmpInt_lt_iff]
    omega
  · simp only [Float.cmp, cmpInt_lt_iff, cmpInt_eq_iff, cmpInt_gt_iff]
    omega

/-- Witness for C7 at the patterns 1, 2, 3. -/
theorem C7_float_bit_identity_witness :
    (Float.beq ⟨1⟩ ⟨2⟩ = true ↔ (Float.mk 1).bits = (Float.mk 2).bits) ∧
    (Float.beq ⟨1⟩ ⟨2⟩ = true → Float.hashData ⟨1⟩ = Float.hashData ⟨2⟩) ∧
    (Float.cmp ⟨1⟩ ⟨2⟩ = .eq ↔ Float.mk 1 = Float.mk 2) ∧
    (Float.cmp ⟨1⟩ ⟨2⟩ = .lt ↔ Float.cmp ⟨2⟩ ⟨1⟩ = .gt) ∧
    (Float.cmp ⟨1⟩ ⟨2⟩ = .lt → Float.cmp ⟨2⟩ ⟨3⟩ = .lt → Float.cmp ⟨1⟩ ⟨3⟩ = .lt) ∧
    (Float.cmp ⟨1⟩ ⟨2⟩ = .lt ∨ Float.cmp ⟨1⟩ ⟨2⟩ = .eq ∨ Float.cmp ⟨1⟩ ⟨2⟩ = .gt) :=
  C7_float_bit_identity ⟨1⟩ ⟨2⟩ ⟨3⟩ (by norm_num) (by norm_num) (by norm_num)

/-! ## C6 — map equality is insertion-order sensitive -/

/-- **C6** (confirmed).  Transcoding the entries `("a", 1), ("b", 2)` and
`("b", 2), ("a", 1)` yields two maps whose entry sequences keep the two
insertion orders; those maps are not equal; and in general the `Map`
comparison (pointwise over the iterators in insertion order) holds exactly
when the entry sequences coincide. -/
theorem C6_map_insertion_order :
    toValue (.map [(.str ('a' :: []), .u32 1), (.str ('b' :: []), .u32 2)]) =
      some (.map [(.string ('a' :: []), .unsigned ⟨1⟩), (.string ('b' :: []), .unsigned ⟨2⟩)]) ∧
    toValue (.map [(.str ('b' :: []), .u32 2), (.str ('a' :: []), .u32 1)]) =
      some (.map [(.string ('b' :: []), .unsigned ⟨2⟩), (.string ('a' :: []), .unsigned ⟨1⟩)]) ∧
    Value.map [(.string ('a' :: []), .unsigned ⟨1⟩), (.string ('b' :: []), .unsigned ⟨2⟩)] ≠
      Value.map [(.string ('b' :: []), .unsigned ⟨2⟩), (.string ('a' :: []), .unsigned ⟨1⟩)] ∧
    ∀ m1 m2 : List (Value × Value), iterPointwiseEq m1 m2 ↔ m1 = m2 := by
  refine ⟨?_, ?_, ?_, ?_⟩
  · simp [toValue, toPairs, mapFromPairs, indexInsert, Value.beq]
  · simp [toValue, toPairs, mapFromPairs, indexInsert, Value.beq]
  · simp
  · intro m1
    induction m1 with
    | nil => intro m2; cases m2 <;> simp [iterPointwiseEq]
    | cons e r ih =>
      intro m2
      cases m2 with
      | nil => simp [iterPointwiseEq]
      | cons e2 r2 => simp [iterPointwiseEq, ih r2]

/-! ## C5 — sign/magnitude split of the widest signed integers -/

/-- `serialize_i128` bytes for a non-negative value: `+` and the digits. -/
theorem serializeI128Bytes_nonneg {x : Int} (hx : 0 ≤ x) :
    serializeI128Bytes x = 43 :: decimalBytes x.natAbs := by
  simp [serializeI128Bytes, Formatter.writeSigned, Formatter.writeUnsigned, hx]

/-- `serialize_i128` bytes for a negative value: `-` and the digits. -/
theorem serializeI128Bytes_neg {x : Int} (hx : x < 0) :
    serializeI128Bytes x = 45 :: decimalBytes x.natAbs := by
  have h : ¬ 0 ≤ x := by omega
  simp [serializeI128Bytes, Formatter.writeSigned, Formatter.writeUnsigned, h]

/-- `as_i64` on a positive signed value whose magnitude fits `i64`. -/
theorem asI64_signed_pos {m : Nat} (hm : m ≤ 9223372036854775807) :
    Value.asI64 (.signed .positive ⟨m⟩) = some (m : Int) := by
  have h64 : m < 18446744073709551616 := by omega
  simp [Value.asI64, Integer.asU64, I64_MAX_AS_U64, h64, hm]

/-- `as_i64` on a positive signed value whose magnitude exceeds `i64::MAX`. -/
theorem asI64_signed_pos_none {m : Nat} (hm : ¬ m ≤ 9223372036854775807) :
    Value.asI64 (.signed .positive ⟨m⟩) = none := by
  by_cases h64 : m < 18446744073709551616 <;>
    simp [Value.asI64, Integer.asU64, I64_MAX_AS_U64, h64, hm]

/-- `as_i64` on a negative signed value with small magnitude. -/
theorem asI64_signed_neg_small {m : Nat} (hm : m ≤ 9223372036854775807) :
    Value.asI64 (.signed .negative ⟨m⟩) = some (-(m : Int)) := by
  have h64 : m < 18446744073709551616 := by omega
  simp [Value.asI64, Integer.asU64, I64_MAX_AS_U64, h64, hm]

/-- `as_i64` on `Signed(Negative, 2^63)` is `i64::MIN`. -/
theorem asI64_signed_neg_min :
    Value.asI64 (.signed .negative ⟨9223372036854775808⟩) = some (-9223372036854775808) := by
  simp [Value.asI64, Integer.asU64, I64_MAX_AS_U64, I64_MIN_AS_U64]

/-- `as_i64` on a negative signed value whose magnitude exceeds `2^63`. -/
theorem asI64_signed_neg_none {m : Nat} (hm : ¬ m ≤ 9223372036854775807)
    (hmin : m ≠ 9223372036854775808) :
    Value.asI64 (.signed .negative ⟨m⟩) = none := by
  by_cases h64 : m < 18446744073709551616 <;>
    simp [Value.asI64, Integer.asU64, I64_MAX_AS_U64, I64_MIN_AS_U64, h64, hm, hmin]

/-- `as_i128` on a positive signed value whose magnitude fits `i128`. -/
theorem asI128_signed_pos {m : Nat} (hm : m ≤ 170141183460469231731687303715884105727) :
    Value.asI128 (.signed .positive ⟨m⟩) = some (m : Int) := by
  have h128 : m < 340282366920938463463374607431768211456 := by omega
  simp [Value.asI128, Integer.asU128, I128_MAX_AS_U128, h128, hm]

/-- `as_i128` on a negative signed value with magnitude at most `i128::MAX`. -/
theorem asI128_signed_neg {m : Nat} (hm : m ≤ 170141183460469231731687303715884105727) :
    Value.asI128 (.signed .negative ⟨m⟩) = some (-(m : Int)) := by
  have h128 : m < 340282366920938463463374607431768211456 := by omega
  simp [Value.asI128, Integer.asU128, I128_MAX_AS_U128, h128, hm]

/-- **C5** (code bug).  The claim: for every `i128`, including `i128::MIN`,
transcoding then rendering reproduces sign and digits, with no panic or
wraparound in the `(sign, magnitude)` split.  The code splits with
`(v.abs() as u128)` (src/value/transcode_ser.rs:48-57, src/ser.rs:49-58,
src/value/de.rs:42-54): `i128::MIN.abs()` overflows, which panics whenever
overflow checks are on and otherwise wraps (two's-complement), so the split
is not overflow-free at exactly this input.  The transcoder and the
schemaless visitor panic at `i128::MIN` under checked semantics, while the
wrapped split that release mode performs happens to cast back to the right
magnitude (third conjunct). -/
theorem C5_i128_min_split_overflows :
    toValue (.i128 (-(2 ^ 127))) = none ∧
    deserializeAny (.i128 (-(2 ^ 127))) = .panicked ∧
    serializeI128Bytes (-(2 ^ 127)) = 45 :: decimalBytes (2 ^ 127) := by
  refine ⟨?_, ?_, ?_⟩
  · simp [toValue, absU128Checked]
  · simp [deserializeAny, absU128Checked]
  · simp [serializeI128Bytes, Formatter.writeSigned, Formatter.writeUnsigned]

/-- For every other 128-bit signed integer the claim holds: transcoding makes
`Signed(sign, |v|)` and rendering that value emits the sign and the decimal
digits of the magnitude. -/
theorem transcode_then_render_signed (v : Int) (hlo : -(2 ^ 127) < v) (hhi : v < 2 ^ 127) :
    toValue (.i128 v) = some (.signed (signOf v) ⟨v.natAbs⟩) ∧
    serializeIntValueBytes (.signed (signOf v) ⟨v.natAbs⟩) =
      some ((if 0 ≤ v then 43 else 45) :: decimalBytes v.natAbs) := by
  have hne : v ≠ -(2 ^ 127) := by omega
  constructor
  · rw [toValue.eq_def]
    simp only [absU128Checked, if_neg hne]
    rfl
  · by_cases hs : 0 ≤ v
    · have hsign : signOf v = .positive := by simp [signOf, hs]
      rw [hsign, if_pos hs]
      by_cases hm : v.natAbs ≤ 9223372036854775807
      · simp only [serializeIntValueBytes, asI64_signed_pos hm,
          serializeI128Bytes_nonneg (show (0 : Int) ≤ (v.natAbs : Int) by omega),
          Int.natAbs_ofNat]
      · have hm128 : v.natAbs ≤ 170141183460469231731687303715884105727 := by omega
        simp only [serializeIntValueBytes, asI64_signed_pos_none hm, asI128_signed_pos hm128,
          serializeI128Bytes_nonneg (show (0 : Int) ≤ (v.natAbs : Int) by omega),
          Int.natAbs_ofNat]
    · have hsign : signOf v = .negative := by simp [signOf, hs]
      have hpos : 0 < v.natAbs := by omega
      rw [hsign, if_neg hs]
      by_cases hm : v.natAbs ≤ 9223372036854775807
      · simp only [serializeIntValueBytes, asI64_signed_neg_small hm,
          serializeI128Bytes_neg (show (-(v.natAbs : Int)) < 0 by omega),
          Int.natAbs_neg, Int.natAbs_ofNat]
      · by_cases hmin : v.natAbs = 9223372036854775808
        · rw [hmin]
          simp only [serializeIntValueBytes, asI64_signed_neg_min,
            serializeI128Bytes_neg (show (-9223372036854775808 : Int) < 0 by norm_num)]
          norm_num
        · have hm128 : v.natAbs ≤ 170141183460469231731687303715884105727 := by omega
          simp only [serializeIntValueBytes, asI64_signed_neg_none hm hmin,
            asI128_signed_neg hm128,
            serializeI128Bytes_neg (show (-(v.natAbs : Int)) < 0 by omega),
            Int.natAbs_neg, Int.natAbs_ofNat]

/-! ## C2 — scenario A: default-config struct render -/

/-- The scenario-A structured source: named struct `Point` with `i32` fields
`x = 1` and `y = -2`. -/
def pointInput : SerInput :=
  .struct ("Point".data) [("x".data, .i32 1), ("y".data, .i32 (-2))]

/-- **C2** (corrected, amended claim).  With the default configuration the
struct renders as exactly `Point(\n    x: +1,\n    y: -2\n)`: a separating
comma is emitted *before* each element after the first
(`begin_struct_field`), and nothing emits a comma after the final field —
`end_struct` writes only the indent step and the closing bracket, so there is
no trailing comma.  (Independent of the escaping table and the float
renderer, which this input never reaches.) -/
theorem C2_point_render (printable : Char → Bool) (floatText : Nat → List Nat) :
    render printable floatText Config.default pointInput =
      asciiBytes "Point(\n    x: +1,\n    y: -2\n)" := by
  simp [render, serValue, serStructFields, serializeI128Bytes, Formatter.beginStruct,
    Formatter.beginStructField, Formatter.endStructField, Formatter.endStruct,
    Formatter.writeSigned, Formatter.writeUnsigned, Config.default, Config.writeIndent,
    Config.writeSpace, Indent.bytes, FmtState.init, asciiBytes, utf8Encode, utf8EncodeChar,
    decimalBytes, String.data, pointInput]

/-- **C2 counterexample**: that render is *not* the claimed text, which has a
trailing comma after the final field (`…y: -2,\n)`). -/
theorem C2_point_render_counterexample :
    render (fun _ => true) (fun _ => []) Config.default pointInput ≠
      asciiBytes "Point(\n    x: +1,\n    y: -2,\n)" := by
  simp [render, serValue, serStructFields, serializeI128Bytes, Formatter.beginStruct,
    Formatter.beginStructField, Formatter.endStructField, Formatter.endStruct,
    Formatter.writeSigned, Formatter.writeUnsigned, Config.default, Config.writeIndent,
    Config.writeSpace, Indent.bytes, FmtState.init, asciiBytes, utf8Encode, utf8EncodeChar,
    decimalBytes, String.data, pointInput]

/-! ## C4 — `Float` ordering versus numeric order -/

/-- One step of monotonicity for the scaled magnitude over the 63-bit
payload: incrementing the pattern cannot decrease the value (the largest
mantissa at one exponent meets the smallest at the next). -/
theorem magScaled_le_succ (x : Nat) : magScaled x ≤ magScaled (x + 1) := by
  unfold magScaled
  by_cases h : (x + 1) % 2 ^ 52 = 0
  · have h1 : x % 2 ^ 52 = 2 ^ 52 - 1 := by omega
    have h2 : (x + 1) / 2 ^ 52 = x / 2 ^ 52 + 1 := by omega
    rw [h1, h2, h]
    by_cases h4 : x / 2 ^ 52 = 0
    · rw [h4]
      norm_num
    · rw [if_neg h4, if_neg (by omega : ¬ x / 2 ^ 52 + 1 = 0)]
      have hq : x / 2 ^ 52 - 1 + 1 = x / 2 ^ 52 := by omega
      have e1 : (2 : Nat) ^ 52 + (2 ^ 52 - 1) ≤ 2 ^ 53 := by norm_num
      calc (2 ^ 52 + (2 ^ 52 - 1)) * 2 ^ (x / 2 ^ 52 - 1)
          ≤ 2 ^ 53 * 2 ^ (x / 2 ^ 52 - 1) := Nat.mul_le_mul_right _ e1
        _ = (2 ^ 52 + 0) * 2 ^ (x / 2 ^ 52 + 1 - 1) := by
            rw [Nat.add_sub_cancel]
            rw [show (2 : Nat) ^ 53 = (2 ^ 52 + 0) * 2 by norm_num]
            rw [Nat.mul_assoc]
            rw [show (2 : Nat) * 2 ^ (x / 2 ^ 52 - 1) = 2 ^ (x / 2 ^ 52 - 1 + 1) by
              rw [Nat.pow_succ]; ring]
            rw [hq]
  · have h2 : (x + 1) / 2 ^ 52 = x / 2 ^ 52 := by omega
    have h3 : (x + 1) % 2 ^ 52 = x % 2 ^ 52 + 1 := by omega
    rw [h2, h3]
    by_cases h4 : x / 2 ^ 52 = 0
    · rw [h4]
      simp
    · rw [if_neg h4, if_neg h4]
      have e : 2 ^ 52 + x % 2 ^ 52 ≤ 2 ^ 52 + (x % 2 ^ 52 + 1) := by omega
      exact Nat.mul_le_mul_right _ e

/-- The IEEE encoding of non-negative magnitudes is monotone in the bit
pattern. -/
theorem magScaled_mono {x y : Nat} (h : x ≤ y) : magScaled x ≤ magScaled y := by
  induction y with
  | zero =>
    have : x = 0 := by omega
    rw [this]
  | succ n ih =>
    rcases Nat.lt_or_ge x (n + 1) with h1 | h1
    · exact Nat.le_trans (ih (by omega)) (magScaled_le_succ n)
    · have : x = n + 1 := by omega
      rw [this]

/-- Nothing is greater than the decoding `+∞`. -/
theorem not_topCoe_lt (x : WithBot (WithTop Int)) :
    ¬ ((⊤ : WithTop Int) : WithBot (WithTop Int)) < x := by
  intro hx
  cases x with
  | bot => exact absurd hx (by simp)
  | coe y =>
    rw [WithBot.coe_lt_coe] at hx
    exact absurd hx (by simp)

/-- **C4 counterexample**: the bit patterns of `-2.0` (`0xC000000000000000`)
and `-1.0` (`0xBFF0000000000000`) are non-NaN and numerically
`-2.0 < -1.0`, yet the derived order has `Float(-2.0) > Float(-1.0)` — the
`as i64` reinterpretation reverses numeric order on pairs of negative
floats, so the claim fails as stated. -/
theorem C4_order_counterexample :
    ¬ f64IsNaN 13835058055282163712 ∧ ¬ f64IsNaN 13830554455654793216 ∧
    f64NumLt 13835058055282163712 13830554455654793216 ∧
    Float.cmp ⟨13835058055282163712⟩ ⟨13830554455654793216⟩ = .gt := by
  refine ⟨by decide, by decide, by decide, by decide⟩

/-- **C4** (corrected, amended claim).  The derived order is consistent with
numeric order on every non-NaN pair whose larger side is non-negative (sign
bit clear): if `a < b` numerically and `b`'s sign bit is clear then
`Float(a) < Float(b)`.  (On two negative values the derived order is the
reverse of numeric order, as the counterexample shows.) -/
theorem C4_nonneg_order (a b : Nat) (ha : a < 2 ^ 64) (_hb : b < 2 ^ 64)
    (hna : ¬ f64IsNaN a) (hnb : ¬ f64IsNaN b) (hbsign : b < 2 ^ 63)
    (hab : f64NumLt a b) : Float.cmp ⟨a⟩ ⟨b⟩ = .lt := by
  rw [Float.cmp, cmpInt_lt_iff]
  have hbv : u64AsI64 b = (b : Int) := by
    unfold u64AsI64
    rw [if_pos hbsign]
  by_cases hasign : a < 2 ^ 63
  · have hav : u64AsI64 a = (a : Int) := by
      unfold u64AsI64
      rw [if_pos hasign]
    rw [hav, hbv, Int.ofNat_lt]
    by_cases hea : f64Exp a = 2047
    · exfalso
      apply not_topCoe_lt (decodeF64 b)
      have hda : decodeF64 a = ((⊤ : WithTop Int) : WithBot (WithTop Int)) := by
        unfold decodeF64
        rw [if_pos hea, if_neg (by omega : ¬ 2 ^ 63 ≤ a)]
      rw [← hda]
      exact hab
    · by_cases heb : f64Exp b = 2047
      · have hfb : f64Frac b = 0 := by
          by_contra hc
          exact hnb ⟨heb, hc⟩
        simp only [f64Exp] at hea heb
        simp only [f64Frac] at hfb
        omega
      · have hda : decodeF64 a =
            (((magScaled a : Int) : WithTop Int) : WithBot (WithTop Int)) := by
          unfold decodeF64
          rw [if_neg hea, if_neg (by omega : ¬ 2 ^ 63 ≤ a)]
        have hdb : decodeF64 b =
            (((magScaled b : Int) : WithTop Int) : WithBot (WithTop Int)) := by
          unfold decodeF64
          rw [if_neg heb, if_neg (by omega : ¬ 2 ^ 63 ≤ b)]
        rw [f64NumLt, hda, hdb, WithBot.coe_lt_coe, WithTop.coe_lt_coe] at hab
        have hmag : magScaled a < magScaled b := by exact_mod_cast hab
        by_contra hge
        have hba : b ≤ a := by omega
        have := magScaled_mono hba
        omega
  · have hav : u64AsI64 a = (a : Int) - 2 ^ 64 := by
      unfold u64AsI64
      rw [if_neg hasign]
    rw [hav, hbv]
    omega

/-- Witness for C4 at the subnormal patterns 1 and 2 (numerically
`2^-1074 < 2^-1073`). -/
theorem C4_nonneg_order_witness : Float.cmp ⟨1⟩ ⟨2⟩ = .lt :=
  C4_nonneg_order 1 2 (by norm_num) (by norm_num) (by decide) (by decide)
    (by norm_num) (by decide)

/-! ## C9 — serialized output is valid UTF-8

Every write the serializer performs is either the UTF-8 encoding of text
(`write!` of names, escaped strings/chars, brackets, punctuation) or raw
ASCII bytes (`lexical` digits, base64, sign and separator bytes), so the
whole buffer is a concatenation of UTF-8 encodings — the unsafe
`String::from_utf8_unchecked` in `to_string` (src/ser.rs:420-430) never
receives invalid UTF-8. -/

/-- A byte string is valid UTF-8 exactly when it is the UTF-8 encoding of
some sequence of unicode scalar values (Lean's `Char` carries the
scalar-value invariant: no surrogates, below `0x110000`). -/
def Utf8Chunks (bs : List Nat) : Prop := ∃ cs : List Char, utf8Encode cs = bs

theorem utf8Encode_append (cs ds : List Char) :
    utf8Encode (cs ++ ds) = utf8Encode cs ++ utf8Encode ds := by
  simp [utf8Encode]

theorem Utf8Chunks.append {a b : List Nat} (ha : Utf8Chunks a) (hb : Utf8Chunks b) :
    Utf8Chunks (a ++ b) := by
  obtain ⟨cs, rfl⟩ := ha
  obtain ⟨ds, rfl⟩ := hb
  exact ⟨cs ++ ds, utf8Encode_append cs ds⟩

theorem Utf8Chunks.nil : Utf8Chunks [] := ⟨[], rfl⟩

theorem Utf8Chunks.encode (cs : List Char) : Utf8Chunks (utf8Encode cs) := ⟨cs, rfl⟩

theorem utf8EncodeChar_ascii {b : Nat} (hb : b < 128) :
    utf8EncodeChar (Char.ofNat b) = [b] := by
  have ht : (Char.ofNat b).toNat = b :=
    (by decide : ∀ b, b < 128 → (Char.ofNat b).toNat = b) b hb
  simp [utf8EncodeChar, ht, hb]

theorem Utf8Chunks.ascii {bs : List Nat} (h : ∀ b ∈ bs, b < 128) : Utf8Chunks bs := by
  induction bs with
  | nil => exact Utf8Chunks.nil
  | cons b r ih =>
    have hb : b < 128 := h b (by simp)
    have : Utf8Chunks ([b] ++ r) :=
      Utf8Chunks.append ⟨[Char.ofNat b], by simp [utf8Encode, utf8EncodeChar_ascii hb]⟩
        (ih fun x hx => h x (by simp [hx]))
    simpa using this

theorem decimalBytes_range (n : Nat) : ∀ b ∈ decimalBytes n, 48 ≤ b ∧ b ≤ 57 := by
  induction n using Nat.strong_induction_on with
  | _ n ih =>
    unfold decimalBytes
    split
    · intro b hb
      simp at hb
      omega
    · intro b hb
      rw [List.mem_append] at hb
      rcases hb with hb | hb
      · exact ih (n / 10) (Nat.div_lt_self (by omega) (by omega)) b hb
      · simp at hb
        omega

theorem base64Digit_range (n : Nat) : 43 ≤ base64Digit n ∧ base64Digit n < 123 := by
  by_cases h : n < 64
  · exact (by decide : ∀ n, n < 64 → 43 ≤ base64Digit n ∧ base64Digit n < 123) n h
  · unfold base64Digit
    rw [List.getD_eq_default]
    · norm_num
    · have : base64Alphabet.length = 64 := by decide
      omega

theorem base64Bytes_range : ∀ bs, ∀ b ∈ base64Bytes bs, 43 ≤ b ∧ b < 123 ∨ b = 61
  | [] => by simp [base64Bytes]
  | [b1] => by
      simp only [base64Bytes, List.mem_cons, List.not_mem_nil, or_false]
      rintro b (rfl | rfl | rfl | rfl)
      · exact .inl (base64Digit_range _)
      · exact .inl (base64Digit_range _)
      · exact .inr rfl
      · exact .inr rfl
  | [b1, b2] => by
      simp only [base64Bytes, List.mem_cons, List.not_mem_nil, or_false]
      rintro b (rfl | rfl | rfl | rfl)
      · exact .inl (base64Digit_range _)
      · exact .inl (base64Digit_range _)
      · exact .inl (base64Digit_range _)
      · exact .inr rfl
  | b1 :: b2 :: b3 :: rest => by
      simp only [base64Bytes, List.mem_cons]
      rintro b (rfl | rfl | rfl | rfl | hb)
      · exact .inl (base64Digit_range _)
      · exact .inl (base64Digit_range _)
      · exact .inl (base64Digit_range _)
      · exact .inl (base64Digit_range _)
      · exact base64Bytes_range rest b hb


theorem Utf8Chunks.ite {c : Prop} [Decidable c] {a b : List Nat}
    (ha : Utf8Chunks a) (hb : Utf8Chunks b) : Utf8Chunks (if c then a else b) := by
  split
  · exact ha
  · exact hb

theorem writeSpace_ascii (cfg : Config) : ∀ b ∈ cfg.writeSpace, b < 128 := by
  unfold Config.writeSpace
  split <;> simp

theorem indentBytes_ascii (ind : Indent) : ∀ b ∈ ind.bytes, b < 128 := by
  cases ind <;> simp [Indent.bytes] <;> intro b h <;> simp [List.eq_of_mem_replicate h]

theorem writeIndent_ascii (cfg : Config) (d : Nat) : ∀ b ∈ cfg.writeIndent d, b < 128 := by
  unfold Config.writeIndent
  split
  · exact writeSpace_ascii cfg
  · intro b hb
    simp only [List.mem_cons] at hb
    rcases hb with rfl | hb
    · omega
    · rw [List.mem_flatten] at hb
      obtain ⟨l, hl, hbl⟩ := hb
      rw [List.mem_replicate] at hl
      exact indentBytes_ascii cfg.indent b (hl.2 ▸ hbl)

theorem writeIndent_chunks (cfg : Config) (d : Nat) : Utf8Chunks (cfg.writeIndent d) :=
  Utf8Chunks.ascii (writeIndent_ascii cfg d)

theorem writeSpace_chunks (cfg : Config) : Utf8Chunks cfg.writeSpace :=
  Utf8Chunks.ascii (writeSpace_ascii cfg)

theorem writeUnsigned_chunks (v : Integer) : Utf8Chunks (Formatter.writeUnsigned v) :=
  Utf8Chunks.ascii fun b hb => by
    have := decimalBytes_range v.raw b hb
    omega

theorem writeSigned_chunks (s : Sign) (v : Integer) :
    Utf8Chunks (Formatter.writeSigned s v) := by
  unfold Formatter.writeSigned
  refine Utf8Chunks.append ?_ (writeUnsigned_chunks v)
  cases s <;> exact Utf8Chunks.ascii (by simp)

theorem serializeI128Bytes_chunks (v : Int) : Utf8Chunks (serializeI128Bytes v) :=
  writeSigned_chunks _ _

theorem writeBytes_chunks (bs : List Nat) : Utf8Chunks (Formatter.writeBytes bs) := by
  unfold Formatter.writeBytes
  refine Utf8Chunks.append (Utf8Chunks.append (Utf8Chunks.ascii (by simp)) ?_)
    (Utf8Chunks.ascii (by simp))
  refine Utf8Chunks.ascii fun b hb => ?_
  rcases base64Bytes_range bs b hb with h | h <;> omega

theorem writeString_chunks (printable : Char → Bool) (s : List Char) :
    Utf8Chunks (Formatter.writeString printable s) :=
  Utf8Chunks.append
    (Utf8Chunks.append (Utf8Chunks.ascii (by simp)) (Utf8Chunks.encode _))
    (Utf8Chunks.ascii (by simp))

theorem writeChar_chunks (printable : Char → Bool) (c : Char) :
    Utf8Chunks (Formatter.writeChar printable c) :=
  Utf8Chunks.append
    (Utf8Chunks.append (Utf8Chunks.ascii (by simp)) (Utf8Chunks.encode _))
    (Utf8Chunks.ascii (by simp))

theorem writeUnit_chunks (v : Option (List Char)) :
    Utf8Chunks (Formatter.writeUnit v) := by
  unfold Formatter.writeUnit
  cases v with
  | none => exact Utf8Chunks.ascii (by simp)
  | some name => exact Utf8Chunks.encode name

theorem writeBool_chunks (b : Bool) : Utf8Chunks (Formatter.writeBool b) := by
  unfold Formatter.writeBool
  cases b <;> exact Utf8Chunks.encode _

theorem beginStruct_chunks (v : Option (List Char)) (st : FmtState) :
    Utf8Chunks (Formatter.beginStruct v st).1 := by
  unfold Formatter.beginStruct
  cases v with
  | none => exact Utf8Chunks.append Utf8Chunks.nil (Utf8Chunks.ascii (by simp))
  | some name => exact Utf8Chunks.append (Utf8Chunks.encode name) (Utf8Chunks.ascii (by simp))

theorem beginStructField_chunks (cfg : Config) (v : Option (List Char)) (st : FmtState) :
    Utf8Chunks (Formatter.beginStructField cfg v st) := by
  unfold Formatter.beginStructField
  refine Utf8Chunks.append (Utf8Chunks.append
    (Utf8Chunks.ite (Utf8Chunks.ascii (by simp)) Utf8Chunks.nil)
    (writeIndent_chunks cfg st.depth)) ?_
  cases v with
  | none => exact Utf8Chunks.nil
  | some name =>
      exact Utf8Chunks.append (Utf8Chunks.append (Utf8Chunks.encode name)
        (Utf8Chunks.ascii (by simp))) (writeSpace_chunks cfg)

theorem endStruct_chunks (cfg : Config) (st : FmtState) :
    Utf8Chunks (Formatter.endStruct cfg st).1 := by
  unfold Formatter.endStruct
  exact Utf8Chunks.append
    (Utf8Chunks.ite (writeIndent_chunks cfg (st.depth - 1)) Utf8Chunks.nil)
    (Utf8Chunks.ascii (by simp))

theorem beginMap_chunks (st : FmtState) : Utf8Chunks (Formatter.beginMap st).1 :=
  Utf8Chunks.ascii (by simp [Formatter.beginMap])

theorem beginMapKey_chunks (cfg : Config) (st : FmtState) :
    Utf8Chunks (Formatter.beginMapKey cfg st) := by
  unfold Formatter.beginMapKey
  exact Utf8Chunks.append (Utf8Chunks.ite (Utf8Chunks.ascii (by simp)) Utf8Chunks.nil)
    (writeIndent_chunks cfg st.depth)

theorem beginMapValue_chunks (cfg : Config) : Utf8Chunks (Formatter.beginMapValue cfg) := by
  unfold Formatter.beginMapValue
  exact Utf8Chunks.append (Utf8Chunks.ascii (by simp)) (writeSpace_chunks cfg)

theorem endMap_chunks (cfg : Config) (st : FmtState) :
    Utf8Chunks (Formatter.endMap cfg st).1 := by
  unfold Formatter.endMap
  exact Utf8Chunks.append
    (Utf8Chunks.ite (writeIndent_chunks cfg (st.depth - 1)) Utf8Chunks.nil)
    (Utf8Chunks.ascii (by simp))

theorem beginArray_chunks (st : FmtState) : Utf8Chunks (Formatter.beginArray st).1 :=
  Utf8Chunks.ascii (by simp [Formatter.beginArray])

theorem beginArrayMember_chunks (cfg : Config) (st : FmtState) :
    Utf8Chunks (Formatter.beginArrayMember cfg st) := by
  unfold Formatter.beginArrayMember
  exact Utf8Chunks.append (Utf8Chunks.ite (Utf8Chunks.ascii (by simp)) Utf8Chunks.nil)
    (writeIndent_chunks cfg st.depth)

theorem endArray_chunks (cfg : Config) (st : FmtState) :
    Utf8Chunks (Formatter.endArray cfg st).1 := by
  unfold Formatter.endArray
  exact Utf8Chunks.append
    (Utf8Chunks.ite (writeIndent_chunks cfg (st.depth - 1)) Utf8Chunks.nil)
    (Utf8Chunks.ascii (by simp))


mutual

theorem serValue_chunks (printable : Char → Bool) (floatText : Nat → List Nat) (cfg : Config)
    (hFT : ∀ f, ∀ b ∈ floatText f, b < 128) :
    ∀ (x : SerInput) (st : FmtState),
      Utf8Chunks (serValue printable floatText cfg x st).1
  | .bool b, _st => by
      simp only [serValue]
      exact writeBool_chunks b
  | .i8 v, _st | .i16 v, _st | .i32 v, _st | .i64 v, _st | .i128 v, _st => by
      simp only [serValue]
      exact serializeI128Bytes_chunks v
  | .u8 v, _st | .u16 v, _st | .u32 v, _st | .u64 v, _st | .u128 v, _st => by
      simp only [serValue]
      exact writeUnsigned_chunks ⟨v⟩
  | .f64 bits, _st => by
      simp only [serValue, Formatter.writeFloat]
      exact Utf8Chunks.ascii (hFT bits)
  | .char c, _st => by
      simp only [serValue]
      exact writeChar_chunks printable c
  | .str s, _st => by
      simp only [serValue]
      exact writeString_chunks printable s
  | .bytes bs, _st => by
      simp only [serValue]
      exact writeBytes_chunks bs
  | .none, _st => by
      simp only [serValue]
      exact writeUnit_chunks _
  | .some v, st => by
      simp only [serValue]
      exact Utf8Chunks.append (Utf8Chunks.append (Utf8Chunks.append
        (beginStruct_chunks _ _) (beginStructField_chunks _ _ _))
        (serValue_chunks printable floatText cfg hFT v _)) (endStruct_chunks _ _)
  | .unit, _st => by
      simp only [serValue]
      exact writeUnit_chunks _
  | .unitStruct name, _st => by
      simp only [serValue]
      exact writeUnit_chunks _
  | .unitVariant _ _ variant, _st => by
      simp only [serValue]
      exact writeUnit_chunks _
  | .newtypeStruct _ v, st => by
      simp only [serValue]
      exact serValue_chunks printable floatText cfg hFT v st
  | .newtypeVariant _ _ variant v, st => by
      simp only [serValue]
      exact Utf8Chunks.append (Utf8Chunks.append (Utf8Chunks.append
        (beginStruct_chunks _ _) (beginStructField_chunks _ _ _))
        (serValue_chunks printable floatText cfg hFT v _)) (endStruct_chunks _ _)
  | .seq xs, st => by
      simp only [serValue]
      exact Utf8Chunks.append (Utf8Chunks.append (beginArray_chunks _)
        (serSeqElements_chunks printable floatText cfg hFT xs _)) (endArray_chunks _ _)
  | .tuple xs, st => by
      simp only [serValue]
      exact Utf8Chunks.append (Utf8Chunks.append (beginStruct_chunks _ _)
        (serTupleElements_chunks printable floatText cfg hFT xs _)) (endStruct_chunks _ _)
  | .tupleStruct name xs, st => by
      simp only [serValue]
      exact Utf8Chunks.append (Utf8Chunks.append (beginStruct_chunks _ _)
        (serTupleElements_chunks printable floatText cfg hFT xs _)) (endStruct_chunks _ _)
  | .tupleVariant _ _ variant xs, st => by
      simp only [serValue]
      exact Utf8Chunks.append (Utf8Chunks.append (beginStruct_chunks _ _)
        (serTupleElements_chunks printable floatText cfg hFT xs _)) (endStruct_chunks _ _)
  | .map entries, st => by
      simp only [serValue]
      exact Utf8Chunks.append (Utf8Chunks.append (beginMap_chunks _)
        (serMapEntries_chunks printable floatText cfg hFT entries _)) (endMap_chunks _ _)
  | .struct name fields, st => by
      simp only [serValue]
      exact Utf8Chunks.append (Utf8Chunks.append (beginStruct_chunks _ _)
        (serStructFields_chunks printable floatText cfg hFT fields _)) (endStruct_chunks _ _)
  | .structVariant _ _ variant fields, st => by
      simp only [serValue]
      exact Utf8Chunks.append (Utf8Chunks.append (beginStruct_chunks _ _)
        (serStructFields_chunks printable floatText cfg hFT fields _)) (endStruct_chunks _ _)

theorem serSeqElements_chunks (printable : Char → Bool) (floatText : Nat → List Nat)
    (cfg : Config) (hFT : ∀ f, ∀ b ∈ floatText f, b < 128) :
    ∀ (xs : List SerInput) (st : FmtState),
      Utf8Chunks (serSeqElements printable floatText cfg xs st).1
  | [], _st => by
      simp only [serSeqElements]
      exact Utf8Chunks.nil
  | x :: xs, st => by
      simp only [serSeqElements]
      exact Utf8Chunks.append (Utf8Chunks.append (beginArrayMember_chunks _ _)
        (serValue_chunks printable floatText cfg hFT x _))
        (serSeqElements_chunks printable floatText cfg hFT xs _)

theorem serTupleElements_chunks (printable : Char → Bool) (floatText : Nat → List Nat)
    (cfg : Config) (hFT : ∀ f, ∀ b ∈ floatText f, b < 128) :
    ∀ (xs : List SerInput) (st : FmtState),
      Utf8Chunks (serTupleElements printable floatText cfg xs st).1
  | [], _st => by
      simp only [serTupleElements]
      exact Utf8Chunks.nil
  | x :: xs, st => by
      simp only [serTupleElements]
      exact Utf8Chunks.append (Utf8Chunks.append (beginStructField_chunks _ _ _)
        (serValue_chunks printable floatText cfg hFT x _))
        (serTupleElements_chunks printable floatText cfg hFT xs _)

theorem serMapEntries_chunks (printable : Char → Bool) (floatText : Nat → List Nat)
    (cfg : Config) (hFT : ∀ f, ∀ b ∈ floatText f, b < 128) :
    ∀ (entries : List (SerInput × SerInput)) (st : FmtState),
      Utf8Chunks (serMapEntries printable floatText cfg entries st).1
  | [], _st => by
      simp only [serMapEntries]
      exact Utf8Chunks.nil
  | (k, v) :: rest, st => by
      simp only [serMapEntries]
      exact Utf8Chunks.append (Utf8Chunks.append (Utf8Chunks.append (Utf8Chunks.append
        (beginMapKey_chunks _ _) (serValue_chunks printable floatText cfg hFT k _))
        (beginMapValue_chunks _)) (serValue_chunks printable floatText cfg hFT v _))
        (serMapEntries_chunks printable floatText cfg hFT rest _)

theorem serStructFields_chunks (printable : Char → Bool) (floatText : Nat → List Nat)
    (cfg : Config) (hFT : ∀ f, ∀ b ∈ floatText f, b < 128) :
    ∀ (fields : List (List Char × SerInput)) (st : FmtState),
      Utf8Chunks (serStructFields printable floatText cfg fields st).1
  | [], _st => by
      simp only [serStructFields]
      exact Utf8Chunks.nil
  | (name, v) :: rest, st => by
      simp only [serStructFields]
      exact Utf8Chunks.append (Utf8Chunks.append (beginStructField_chunks _ _ _)
        (serValue_chunks printable floatText cfg hFT v _))
        (serStructFields_chunks printable floatText cfg hFT rest _)

end

/-- **C9** (confirmed).  Whenever the float renderer emits ASCII (which the
spec requires of `lexical`'s decimal text), the buffer `to_vec` produces for
any input, under any configuration, is valid UTF-8.  (In the model the byte
sink is an in-memory vector, so a completed serialization is exactly one
whose splits did not panic; the rendered bytes below are the buffer of any
completed run.) -/
theorem C9_render_utf8 (printable : Char → Bool) (floatText : Nat → List Nat)
    (cfg : Config) (hFT : ∀ f, ∀ b ∈ floatText f, b < 128) (input : SerInput) :
    Utf8Chunks (render printable floatText cfg input) :=
  serValue_chunks printable floatText cfg hFT input FmtState.init

/-- Witness for C9: a concrete float renderer (`"0"`) and input. -/
theorem C9_render_utf8_witness :
    Utf8Chunks (render (fun _ => true) (fun _ => [48]) Config.default (.u64 7)) :=
  C9_render_utf8 (fun _ => true) (fun _ => [48]) Config.default
    (by
      intro f b hb
      simp at hb
      omega)
    (.u64 7)

/-! ## C3 — depth limit 0 -/

/-- No newline character in a piece of text. -/
def noNlText (s : List Char) : Bool :=
  s.all fun c => !(c == '\n')

mutual

/-- Every struct/variant/field name occurring in the input is free of
newlines (names are written to the output verbatim, unescaped). -/
def nlFreeNames : SerInput → Bool
  | .bool _ | .i8 _ | .i16 _ | .i32 _ | .i64 _ | .i128 _ => true
  | .u8 _ | .u16 _ | .u32 _ | .u64 _ | .u128 _ => true
  | .f64 _ | .char _ | .str _ | .bytes _ => true
  | .none | .unit => true
  | .unitStruct name => noNlText name
  | .unitVariant name _ variant => noNlText name && noNlText variant
  | .some v => nlFreeNames v
  | .newtypeStruct name v => noNlText name && nlFreeNames v
  | .newtypeVariant name _ variant v =>
      noNlText name && noNlText variant && nlFreeNames v
  | .seq xs => nlFreeNamesList xs
  | .tuple xs => nlFreeNamesList xs
  | .tupleStruct name xs => noNlText name && nlFreeNamesList xs
  | .tupleVariant name _ variant xs =>
      noNlText name && noNlText variant && nlFreeNamesList xs
  | .map entries => nlFreeNamesEntries entries
  | .struct name fields => noNlText name && nlFreeNamesFields fields
  | .structVariant name _ variant fields =>
      noNlText name && noNlText variant && nlFreeNamesFields fields

def nlFreeNamesList : List SerInput → Bool
  | [] => true
  | x :: xs => nlFreeNames x && nlFreeNamesList xs

def nlFreeNamesEntries : List (SerInput × SerInput) → Bool
  | [] => true
  | (k, v) :: rest => nlFreeNames k && nlFreeNames v && nlFreeNamesEntries rest

def nlFreeNamesFields : List (List Char × SerInput) → Bool
  | [] => true
  | (name, v) :: rest => noNlText name && nlFreeNames v && nlFreeNamesFields rest

end

mutual

/-- Serializing any value leaves the formatter depth where it started
(begin/end pairs are balanced). -/
theorem serValue_depth (printable : Char → Bool) (floatText : Nat → List Nat)
    (cfg : Config) :
    ∀ (x : SerInput) (st : FmtState),
      (serValue printable floatText cfg x st).2.depth = st.depth
  | .bool _, _ | .i8 _, _ | .i16 _, _ | .i32 _, _ | .i64 _, _ | .i128 _, _
  | .u8 _, _ | .u16 _, _ | .u32 _, _ | .u64 _, _ | .u128 _, _
  | .f64 _, _ | .char _, _ | .str _, _ | .bytes _, _ | .none, _
  | .unit, _ | .unitStruct _, _ | .unitVariant _ _ _, _ => by
      simp only [serValue]
  | .some v, st => by
      simp only [serValue, Formatter.beginStruct, Formatter.endStruct,
        Formatter.endStructField]
      rw [serValue_depth printable floatText cfg v _]
      simp
  | .newtypeStruct _ v, st => by
      simp only [serValue]
      exact serValue_depth printable floatText cfg v st
  | .newtypeVariant _ _ _ v, st => by
      simp only [serValue, Formatter.beginStruct, Formatter.endStruct,
        Formatter.endStructField]
      rw [serValue_depth printable floatText cfg v _]
      simp
  | .seq xs, st => by
      simp only [serValue, Formatter.beginArray, Formatter.endArray]
      rw [serSeqElements_depth printable floatText cfg xs _]
      simp
  | .tuple xs, st => by
      simp only [serValue, Formatter.beginStruct, Formatter.endStruct]
      rw [serTupleElements_depth printable floatText cfg xs _]
      simp
  | .tupleStruct _ xs, st => by
      simp only [serValue, Formatter.beginStruct, Formatter.endStruct]
      rw [serTupleElements_depth printable floatText cfg xs _]
      simp
  | .tupleVariant _ _ _ xs, st => by
      simp only [serValue, Formatter.beginStruct, Formatter.endStruct]
      rw [serTupleElements_depth printable floatText cfg xs _]
      simp
  | .map entries, st => by
      simp only [serValue, Formatter.beginMap, Formatter.endMap]
      rw [serMapEntries_depth printable floatText cfg entries _]
      simp
  | .struct _ fields, st => by
      simp only [serValue, Formatter.beginStruct, Formatter.endStruct]
      rw [serStructFields_depth printable floatText cfg fields _]
      simp
  | .structVariant _ _ _ fields, st => by
      simp only [serValue, Formatter.beginStruct, Formatter.endStruct]
      rw [serStructFields_depth printable floatText cfg fields _]
      simp

theorem serSeqElements_depth (printable : Char → Bool) (floatText : Nat → List Nat)
    (cfg : Config) :
    ∀ (xs : List SerInput) (st : FmtState),
      (serSeqElements printable floatText cfg xs st).2.depth = st.depth
  | [], _st => by simp only [serSeqElements]
  | x :: xs, st => by
      simp only [serSeqElements, Formatter.endArrayMember]
      rw [serSeqElements_depth printable floatText cfg xs _]
      exact serValue_depth printable floatText cfg x st

theorem serTupleElements_depth (printable : Char → Bool) (floatText : Nat → List Nat)
    (cfg : Config) :
    ∀ (xs : List SerInput) (st : FmtState),
      (serTupleElements printable floatText cfg xs st).2.depth = st.depth
  | [], _st => by simp only [serTupleElements]
  | x :: xs, st => by
      simp only [serTupleElements, Formatter.endStructField]
      rw [serTupleElements_depth printable floatText cfg xs _]
      exact serValue_depth printable floatText cfg x st

theorem serMapEntries_depth (printable : Char → Bool) (floatText : Nat → List Nat)
    (cfg : Config) :
    ∀ (entries : List (SerInput × SerInput)) (st : FmtState),
      (serMapEntries printable floatText cfg entries st).2.depth = st.depth
  | [], _st => by simp only [serMapEntries]
  | (k, v) :: rest, st => by
      simp only [serMapEntries, Formatter.endMapKey, Formatter.endMapValue]
      rw [serMapEntries_depth printable floatText cfg rest _]
      rw [serValue_depth printable floatText cfg v _]
      simp
      exact serValue_depth printable floatText cfg k st

theorem serStructFields_depth (printable : Char → Bool) (floatText : Nat → List Nat)
    (cfg : Config) :
    ∀ (fields : List (List Char × SerInput)) (st : FmtState),
      (serStructFields printable floatText cfg fields st).2.depth = st.depth
  | [], _st => by simp only [serStructFields]
  | (name, v) :: rest, st => by
      simp only [serStructFields, Formatter.endStructField]
      rw [serStructFields_depth printable floatText cfg rest _]
      exact serValue_depth printable floatText cfg v st

end

theorem noTen_append {a b : List Nat} (ha : 10 ∉ a) (hb : 10 ∉ b) : 10 ∉ a ++ b := by
  rw [List.mem_append]
  rintro (h | h)
  · exact ha h
  · exact hb h

theorem noTen_ite {c : Prop} [Decidable c] {a b : List Nat}
    (ha : 10 ∉ a) (hb : 10 ∉ b) : 10 ∉ (if c then a else b) := by
  split
  · exact ha
  · exact hb

theorem hexChars_no_nl (n : Nat) : ∀ c ∈ hexChars n, c ≠ '\n' := by
  induction n using Nat.strong_induction_on with
  | _ n ih =>
    unfold hexChars
    split
    · intro c hc
      simp only [List.mem_singleton] at hc
      subst hc
      revert n
      exact fun n _ h =>
        (by decide : ∀ d, d < 16 →
          (if d < 10 then Char.ofNat (48 + d) else Char.ofNat (87 + d)) ≠ '\n') n (by omega)
    · intro c hc
      rw [List.mem_append] at hc
      rcases hc with hc | hc
      · exact ih (n / 16) (Nat.div_lt_self (by omega) (by omega)) c hc
      · simp only [List.mem_singleton] at hc
        subst hc
        have hlt : n % 16 < 16 := Nat.mod_lt _ (by omega)
        exact (by decide : ∀ d, d < 16 →
          (if d < 10 then Char.ofNat (48 + d) else Char.ofNat (87 + d)) ≠ '\n')
          (n % 16) hlt

theorem char_toNat_ne_ten {c : Char} (h : c ≠ '\n') : c.toNat ≠ 10 := by
  intro h10
  apply h
  apply Char.ext
  apply UInt32.ext
  exact h10

theorem utf8EncodeChar_no_ten {c : Char} (h : c ≠ '\n') : 10 ∉ utf8EncodeChar c := by
  have h10 := char_toNat_ne_ten h
  intro hm
  simp only [utf8EncodeChar] at hm
  split at hm
  · simp only [List.mem_singleton] at hm
    omega
  · split at hm
    · simp only [List.mem_cons, List.not_mem_nil, or_false] at hm
      omega
    · split at hm <;>
        (simp only [List.mem_cons, List.not_mem_nil, or_false] at hm; omega)

theorem encode_no_ten {cs : List Char} (h : ∀ c ∈ cs, c ≠ '\n') : 10 ∉ utf8Encode cs := by
  induction cs with
  | nil => simp [utf8Encode]
  | cons c r ih =>
    simp only [utf8Encode, List.map_cons, List.flatten_cons]
    exact noTen_append (utf8EncodeChar_no_ten (h c (by simp)))
      (ih fun x hx => h x (by simp [hx]))

theorem noNlText_encode_no_ten {s : List Char} (h : noNlText s = true) :
    10 ∉ utf8Encode s := by
  apply encode_no_ten
  intro c hc
  have := List.all_eq_true.mp h c hc
  simpa using this

theorem escapeDebugChar_no_nl (printable : Char → Bool) (c : Char) :
    ∀ c' ∈ escapeDebugChar printable c, c' ≠ '\n' := by
  intro c' hc'
  simp only [escapeDebugChar] at hc'
  split_ifs at hc' with h1 h2 h3 h4 h5 h6 h7
  · simp only [List.mem_cons, List.not_mem_nil, or_false] at hc'
    rcases hc' with rfl | rfl <;> decide
  · simp only [List.mem_cons, List.not_mem_nil, or_false] at hc'
    rcases hc' with rfl | rfl <;> decide
  · simp only [List.mem_cons, List.not_mem_nil, or_false] at hc'
    rcases hc' with rfl | rfl <;> decide
  · simp only [List.mem_cons, List.not_mem_nil, or_false] at hc'
    rcases hc' with rfl | rfl <;> decide
  · simp only [List.mem_cons, List.not_mem_nil, or_false] at hc'
    rcases hc' with rfl | rfl <;> decide
  · simp only [List.mem_cons, List.not_mem_nil, or_false] at hc'
    rcases hc' with rfl | rfl <;> decide
  · simp only [List.mem_singleton] at hc'
    subst hc'
    exact h3
  · simp only [List.mem_cons] at hc'
    rcases hc' with rfl | rfl | rfl | hc'
    · decide
    · decide
    · decide
    · rw [List.mem_append] at hc'
      rcases hc' with hc' | hc'
      · exact hexChars_no_nl c.toNat c' hc'
      · simp only [List.mem_singleton] at hc'
        subst hc'
        decide

theorem writeSpace_zero {cfg : Config} (h : cfg.depthLimit = 0) : cfg.writeSpace = [] := by
  simp [Config.writeSpace, h]

theorem writeIndent_zero {cfg : Config} (h : cfg.depthLimit = 0) {d : Nat} (hd : 1 ≤ d) :
    cfg.writeIndent d = [] := by
  unfold Config.writeIndent
  rw [if_pos (by omega), writeSpace_zero h]

theorem escapeDebugStr_no_nl (printable : Char → Bool) (s : List Char) :
    ∀ c' ∈ escapeDebugStr printable s, c' ≠ '\n' := by
  intro c' hc'
  unfold escapeDebugStr at hc'
  rw [List.mem_flatten] at hc'
  obtain ⟨l, hl, hcl⟩ := hc'
  rw [List.mem_map] at hl
  obtain ⟨c, _, rfl⟩ := hl
  exact escapeDebugChar_no_nl printable c c' hcl

theorem writeString_no_ten (printable : Char → Bool) (s : List Char) :
    10 ∉ Formatter.writeString printable s := by
  unfold Formatter.writeString
  exact noTen_append (noTen_append (by decide)
    (encode_no_ten (escapeDebugStr_no_nl printable s))) (by decide)

theorem writeChar_no_ten (printable : Char → Bool) (c : Char) :
    10 ∉ Formatter.writeChar printable c := by
  unfold Formatter.writeChar
  exact noTen_append (noTen_append (by decide)
    (encode_no_ten (escapeDebugChar_no_nl printable c))) (by decide)

theorem writeBytes_no_ten (bs : List Nat) : 10 ∉ Formatter.writeBytes bs := by
  unfold Formatter.writeBytes
  refine noTen_append (noTen_append (by decide) ?_) (by decide)
  intro hm
  rcases base64Bytes_range bs 10 hm with h | h <;> omega

theorem writeBool_no_ten (b : Bool) : 10 ∉ Formatter.writeBool b := by
  cases b <;> decide

theorem writeUnsigned_no_ten (v : Integer) : 10 ∉ Formatter.writeUnsigned v := by
  intro hm
  have := decimalBytes_range v.raw 10 hm
  omega

theorem writeSigned_no_ten (s : Sign) (v : Integer) :
    10 ∉ Formatter.writeSigned s v := by
  unfold Formatter.writeSigned
  cases s <;> exact noTen_append (by decide) (writeUnsigned_no_ten v)

theorem serializeI128Bytes_no_ten (v : Int) : 10 ∉ serializeI128Bytes v :=
  writeSigned_no_ten _ _

theorem writeUnit_no_ten {v : Option (List Char)}
    (hv : ∀ s, v = some s → noNlText s = true) : 10 ∉ Formatter.writeUnit v := by
  unfold Formatter.writeUnit
  cases v with
  | none => decide
  | some name => exact noNlText_encode_no_ten (hv name rfl)

theorem beginStruct_no_ten {v : Option (List Char)}
    (hv : ∀ s, v = some s → noNlText s = true) (st : FmtState) :
    10 ∉ (Formatter.beginStruct v st).1 := by
  unfold Formatter.beginStruct
  refine noTen_append ?_ (by decide)
  cases v with
  | none => simp
  | some name => exact noNlText_encode_no_ten (hv name rfl)

theorem beginStructField_no_ten {cfg : Config} (hcfg : cfg.depthLimit = 0)
    {v : Option (List Char)} (hv : ∀ s, v = some s → noNlText s = true)
    {st : FmtState} (hd : 1 ≤ st.depth) :
    10 ∉ Formatter.beginStructField cfg v st := by
  unfold Formatter.beginStructField
  rw [writeIndent_zero hcfg hd]
  refine noTen_append (noTen_append (noTen_ite (by decide) (by simp)) (by simp)) ?_
  cases v with
  | none => simp
  | some name =>
    rw [writeSpace_zero hcfg]
    exact noTen_append (noTen_append (noNlText_encode_no_ten (hv name rfl)) (by decide))
      (by simp)

theorem endStruct_no_ten {cfg : Config} (hcfg : cfg.depthLimit = 0)
    {st : FmtState} (hd : 2 ≤ st.depth) :
    10 ∉ (Formatter.endStruct cfg st).1 := by
  unfold Formatter.endStruct
  rw [writeIndent_zero hcfg (by omega)]
  exact noTen_append (noTen_ite (by simp) (by simp)) (by decide)

theorem beginMap_no_ten (st : FmtState) : 10 ∉ (Formatter.beginMap st).1 := by
  simp [Formatter.beginMap]

theorem beginMapKey_no_ten {cfg : Config} (hcfg : cfg.depthLimit = 0)
    {st : FmtState} (hd : 1 ≤ st.depth) :
    10 ∉ Formatter.beginMapKey cfg st := by
  unfold Formatter.beginMapKey
  rw [writeIndent_zero hcfg hd]
  exact noTen_append (noTen_ite (by decide) (by simp)) (by simp)

theorem beginMapValue_no_ten {cfg : Config} (hcfg : cfg.depthLimit = 0) :
    10 ∉ Formatter.beginMapValue cfg := by
  unfold Formatter.beginMapValue
  rw [writeSpace_zero hcfg]
  simp

theorem endMap_no_ten {cfg : Config} (hcfg : cfg.depthLimit = 0)
    {st : FmtState} (hd : 2 ≤ st.depth) :
    10 ∉ (Formatter.endMap cfg st).1 := by
  unfold Formatter.endMap
  rw [writeIndent_zero hcfg (by omega)]
  exact noTen_append (noTen_ite (by simp) (by simp)) (by decide)

theorem beginArray_no_ten (st : FmtState) : 10 ∉ (Formatter.beginArray st).1 := by
  simp [Formatter.beginArray]

theorem beginArrayMember_no_ten {cfg : Config} (hcfg : cfg.depthLimit = 0)
    {st : FmtState} (hd : 1 ≤ st.depth) :
    10 ∉ Formatter.beginArrayMember cfg st := by
  unfold Formatter.beginArrayMember
  rw [writeIndent_zero hcfg hd]
  exact noTen_append (noTen_ite (by decide) (by simp)) (by simp)

theorem endArray_no_ten {cfg : Config} (hcfg : cfg.depthLimit = 0)
    {st : FmtState} (hd : 2 ≤ st.depth) :
    10 ∉ (Formatter.endArray cfg st).1 := by
  unfold Formatter.endArray
  rw [writeIndent_zero hcfg (by omega)]
  exact noTen_append (noTen_ite (by simp) (by simp)) (by decide)

mutual

theorem serValue_no_ten (printable : Char → Bool) (floatText : Nat → List Nat)
    (cfg : Config) (hcfg : cfg.depthLimit = 0) (hFT : ∀ f, 10 ∉ floatText f) :
    ∀ (x : SerInput) (st : FmtState), nlFreeNames x = true → 1 ≤ st.depth →
      10 ∉ (serValue printable floatText cfg x st).1
  | .bool b, _st => fun _ _ => by
      simp only [serValue]
      exact writeBool_no_ten b
  | .i8 v, _st | .i16 v, _st | .i32 v, _st | .i64 v, _st | .i128 v, _st => fun _ _ => by
      simp only [serValue]
      exact serializeI128Bytes_no_ten v
  | .u8 v, _st | .u16 v, _st | .u32 v, _st | .u64 v, _st | .u128 v, _st => fun _ _ => by
      simp only [serValue]
      exact writeUnsigned_no_ten ⟨v⟩
  | .f64 bits, _st => fun _ _ => by
      simp only [serValue, Formatter.writeFloat]
      exact hFT bits
  | .char c, _st => fun _ _ => by
      simp only [serValue]
      exact writeChar_no_ten printable c
  | .str s, _st => fun _ _ => by
      simp only [serValue]
      exact writeString_no_ten printable s
  | .bytes bs, _st => fun _ _ => by
      simp only [serValue]
      exact writeBytes_no_ten bs
  | .none, _st => fun _ _ => by
      simp only [serValue]
      exact writeUnit_no_ten fun s hs => by
        cases hs
        decide
  | .unit, _st => fun _ _ => by
      simp only [serValue]
      exact writeUnit_no_ten fun s hs => by cases hs
  | .unitStruct name, _st => fun hnl _ => by
      simp only [nlFreeNames] at hnl
      simp only [serValue]
      exact writeUnit_no_ten fun s hs => by
        cases hs
        exact hnl
  | .unitVariant name _ variant, _st => fun hnl _ => by
      simp only [nlFreeNames, Bool.and_eq_true] at hnl
      simp only [serValue]
      exact writeUnit_no_ten fun s hs => by
        cases hs
        exact hnl.2
  | .some v, st => fun hnl hd => by
      simp only [nlFreeNames] at hnl
      simp only [serValue]
      have hd1 : (1 : Nat) ≤ (Formatter.beginStruct
          (Option.some ('S' :: 'o' :: 'm' :: 'e' :: [])) st).2.depth := by
        simp [Formatter.beginStruct]
      have hdep : (serValue printable floatText cfg v (Formatter.beginStruct
          (Option.some ('S' :: 'o' :: 'm' :: 'e' :: [])) st).2).2.depth = st.depth + 1 := by
        rw [serValue_depth]
        simp [Formatter.beginStruct]
      refine noTen_append (noTen_append (noTen_append
        (beginStruct_no_ten (fun s hs => by cases hs; decide) st)
        (beginStructField_no_ten hcfg (fun s hs => by cases hs) hd1)) ?_) ?_
      · exact serValue_no_ten printable floatText cfg hcfg hFT v _ hnl hd1
      · exact endStruct_no_ten hcfg (by simp [Formatter.endStructField, hdep]; omega)
  | .newtypeStruct _ v, st => fun hnl hd => by
      simp only [nlFreeNames, Bool.and_eq_true] at hnl
      simp only [serValue]
      exact serValue_no_ten printable floatText cfg hcfg hFT v st hnl.2 hd
  | .newtypeVariant _ _ variant v, st => fun hnl hd => by
      simp only [nlFreeNames, Bool.and_eq_true] at hnl
      simp only [serValue]
      have hd1 : (1 : Nat) ≤ (Formatter.beginStruct (Option.some variant) st).2.depth := by
        simp [Formatter.beginStruct]
      have hdep : (serValue printable floatText cfg v (Formatter.beginStruct
          (Option.some variant) st).2).2.depth = st.depth + 1 := by
        rw [serValue_depth]
        simp [Formatter.beginStruct]
      refine noTen_append (noTen_append (noTen_append
        (beginStruct_no_ten (fun s hs => by cases hs; exact hnl.1.2) st)
        (beginStructField_no_ten hcfg (fun s hs => by cases hs) hd1)) ?_) ?_
      · exact serValue_no_ten printable floatText cfg hcfg hFT v _ hnl.2 hd1
      · exact endStruct_no_ten hcfg (by simp [Formatter.endStructField, hdep]; omega)
  | .seq xs, st => fun hnl hd => by
      simp only [nlFreeNames] at hnl
      simp only [serValue]
      have hd1 : (1 : Nat) ≤ (Formatter.beginArray st).2.depth := by
        simp [Formatter.beginArray]
      have hdep : (serSeqElements printable floatText cfg xs
          (Formatter.beginArray st).2).2.depth = st.depth + 1 := by
        rw [serSeqElements_depth]
        simp [Formatter.beginArray]
      refine noTen_append (noTen_append (beginArray_no_ten st) ?_) ?_
      · exact serSeqElements_no_ten printable floatText cfg hcfg hFT xs _ hnl hd1
      · exact endArray_no_ten hcfg (by omega)
  | .tuple xs, st => fun hnl hd => by
      simp only [nlFreeNames] at hnl
      simp only [serValue]
      have hd1 : (1 : Nat) ≤ (Formatter.beginStruct Option.none st).2.depth := by
        simp [Formatter.beginStruct]
      have hdep : (serTupleElements printable floatText cfg xs
          (Formatter.beginStruct Option.none st).2).2.depth = st.depth + 1 := by
        rw [serTupleElements_depth]
        simp [Formatter.beginStruct]
      refine noTen_append (noTen_append
        (beginStruct_no_ten (fun s hs => by cases hs) st) ?_) ?_
      · exact serTupleElements_no_ten printable floatText cfg hcfg hFT xs _ hnl hd1
      · exact endStruct_no_ten hcfg (by omega)
  | .tupleStruct name xs, st => fun hnl hd => by
      simp only [nlFreeNames, Bool.and_eq_true] at hnl
      simp only [serValue]
      have hd1 : (1 : Nat) ≤ (Formatter.beginStruct (Option.some name) st).2.depth := by
        simp [Formatter.beginStruct]
      have hdep : (serTupleElements printable floatText cfg xs
          (Formatter.beginStruct (Option.some name) st).2).2.depth = st.depth + 1 := by
        rw [serTupleElements_depth]
        simp [Formatter.beginStruct]
      refine noTen_append (noTen_append
        (beginStruct_no_ten (fun s hs => by cases hs; exact hnl.1) st) ?_) ?_
      · exact serTupleElements_no_ten printable floatText cfg hcfg hFT xs _ hnl.2 hd1
      · exact endStruct_no_ten hcfg (by omega)
  | .tupleVariant _ _ variant xs, st => fun hnl hd => by
      simp only [nlFreeNames, Bool.and_eq_true] at hnl
      simp only [serValue]
      have hd1 : (1 : Nat) ≤ (Formatter.beginStruct (Option.some variant) st).2.depth := by
        simp [Formatter.beginStruct]
      have hdep : (serTupleElements printable floatText cfg xs
          (Formatter.beginStruct (Option.some variant) st).2).2.depth = st.depth + 1 := by
        rw [serTupleElements_depth]
        simp [Formatter.beginStruct]
      refine noTen_append (noTen_append
        (beginStruct_no_ten (fun s hs => by cases hs; exact hnl.1.2) st) ?_) ?_
      · exact serTupleElements_no_ten printable floatText cfg hcfg hFT xs _ hnl.2 hd1
      · exact endStruct_no_ten hcfg (by omega)
  | .map entries, st => fun hnl hd => by
      simp only [nlFreeNames] at hnl
      simp only [serValue]
      have hd1 : (1 : Nat) ≤ (Formatter.beginMap st).2.depth := by
        simp [Formatter.beginMap]
      have hdep : (serMapEntries printable floatText cfg entries
          (Formatter.beginMap st).2).2.depth = st.depth + 1 := by
        rw [serMapEntries_depth]
        simp [Formatter.beginMap]
      refine noTen_append (noTen_append (beginMap_no_ten st) ?_) ?_
      · exact serMapEntries_no_ten printable floatText cfg hcfg hFT entries _ hnl hd1
      · exact endMap_no_ten hcfg (by omega)
  | .struct name fields, st => fun hnl hd => by
      simp only [nlFreeNames, Bool.and_eq_true] at hnl
      simp only [serValue]
      have hd1 : (1 : Nat) ≤ (Formatter.beginStruct (Option.some name) st).2.depth := by
        simp [Formatter.beginStruct]
      have hdep : (serStructFields printable floatText cfg fields
          (Formatter.beginStruct (Option.some name) st).2).2.depth = st.depth + 1 := by
        rw [serStructFields_depth]
        simp [Formatter.beginStruct]
      refine noTen_append (noTen_append
        (beginStruct_no_ten (fun s hs => by cases hs; exact hnl.1) st) ?_) ?_
      · exact serStructFields_no_ten printable floatText cfg hcfg hFT fields _ hnl.2 hd1
      · exact endStruct_no_ten hcfg (by omega)
  | .structVariant _ _ variant fields, st => fun hnl hd => by
      simp only [nlFreeNames, Bool.and_eq_true] at hnl
      simp only [serValue]
      have hd1 : (1 : Nat) ≤ (Formatter.beginStruct (Option.some variant) st).2.depth := by
        simp [Formatter.beginStruct]
      have hdep : (serStructFields printable floatText cfg fields
          (Formatter.beginStruct (Option.some variant) st).2).2.depth = st.depth + 1 := by
        rw [serStructFields_depth]
        simp [Formatter.beginStruct]
      refine noTen_append (noTen_append
        (beginStruct_no_ten (fun s hs => by cases hs; exact hnl.1.2) st) ?_) ?_
      · exact serStructFields_no_ten printable floatText cfg hcfg hFT fields _ hnl.2 hd1
      · exact endStruct_no_ten hcfg (by omega)

theorem serSeqElements_no_ten (printable : Char → Bool) (floatText : Nat → List Nat)
    (cfg : Config) (hcfg : cfg.depthLimit = 0) (hFT : ∀ f, 10 ∉ floatText f) :
    ∀ (xs : List SerInput) (st : FmtState), nlFreeNamesList xs = true → 1 ≤ st.depth →
      10 ∉ (serSeqElements printable floatText cfg xs st).1
  | [], _st => fun _ _ => by
      simp [serSeqElements]
  | x :: xs, st => fun hnl hd => by
      simp only [nlFreeNamesList, Bool.and_eq_true] at hnl
      simp only [serSeqElements]
      have hdep : (1 : Nat) ≤ (Formatter.endArrayMember
          (serValue printable floatText cfg x st).2).depth := by
        simp only [Formatter.endArrayMember]
        rw [serValue_depth]
        omega
      refine noTen_append (noTen_append (beginArrayMember_no_ten hcfg hd) ?_) ?_
      · exact serValue_no_ten printable floatText cfg hcfg hFT x st hnl.1 hd
      · exact serSeqElements_no_ten printable floatText cfg hcfg hFT xs _ hnl.2 hdep

theorem serTupleElements_no_ten (printable : Char → Bool) (floatText : Nat → List Nat)
    (cfg : Config) (hcfg : cfg.depthLimit = 0) (hFT : ∀ f, 10 ∉ floatText f) :
    ∀ (xs : List SerInput) (st : FmtState), nlFreeNamesList xs = true → 1 ≤ st.depth →
      10 ∉ (serTupleElements printable floatText cfg xs st).1
  | [], _st => fun _ _ => by
      simp [serTupleElements]
  | x :: xs, st => fun hnl hd => by
      simp only [nlFreeNamesList, Bool.and_eq_true] at hnl
      simp only [serTupleElements]
      have hdep : (1 : Nat) ≤ (Formatter.endStructField
          (serValue printable floatText cfg x st).2).depth := by
        simp only [Formatter.endStructField]
        rw [serValue_depth]
        omega
      refine noTen_append (noTen_append
        (beginStructField_no_ten hcfg (fun s hs => by cases hs) hd) ?_) ?_
      · exact serValue_no_ten printable floatText cfg hcfg hFT x st hnl.1 hd
      · exact serTupleElements_no_ten printable floatText cfg hcfg hFT xs _ hnl.2 hdep

theorem serMapEntries_no_ten (printable : Char → Bool) (floatText : Nat → List Nat)
    (cfg : Config) (hcfg : cfg.depthLimit = 0) (hFT : ∀ f, 10 ∉ floatText f) :
    ∀ (entries : List (SerInput × SerInput)) (st : FmtState),
      nlFreeNamesEntries entries = true → 1 ≤ st.depth →
      10 ∉ (serMapEntries printable floatText cfg entries st).1
  | [], _st => fun _ _ => by
      simp [serMapEntries]
  | (k, v) :: rest, st => fun hnl hd => by
      simp only [nlFreeNamesEntries, Bool.and_eq_true] at hnl
      simp only [serMapEntries]
      have hdk : (1 : Nat) ≤ (Formatter.endMapKey
          (serValue printable floatText cfg k st).2).depth := by
        simp only [Formatter.endMapKey]
        rw [serValue_depth]
        omega
      have hdv : (1 : Nat) ≤ (Formatter.endMapValue
          (serValue printable floatText cfg v (Formatter.endMapKey
            (serValue printable floatText cfg k st).2)).2).depth := by
        simp only [Formatter.endMapValue]
        rw [serValue_depth]
        exact hdk
      refine noTen_append (noTen_append (noTen_append (noTen_append
        (beginMapKey_no_ten hcfg hd) ?_) (beginMapValue_no_ten hcfg)) ?_) ?_
      · exact serValue_no_ten printable floatText cfg hcfg hFT k st hnl.1.1 hd
      · exact serValue_no_ten printable floatText cfg hcfg hFT v _ hnl.1.2 hdk
      · exact serMapEntries_no_ten printable floatText cfg hcfg hFT rest _ hnl.2 hdv

theorem serStructFields_no_ten (printable : Char → Bool) (floatText : Nat → List Nat)
    (cfg : Config) (hcfg : cfg.depthLimit = 0) (hFT : ∀ f, 10 ∉ floatText f) :
    ∀ (fields : List (List Char × SerInput)) (st : FmtState),
      nlFreeNamesFields fields = true → 1 ≤ st.depth →
      10 ∉ (serStructFields printable floatText cfg fields st).1
  | [], _st => fun _ _ => by
      simp [serStructFields]
  | (name, v) :: rest, st => fun hnl hd => by
      simp only [nlFreeNamesFields, Bool.and_eq_true] at hnl
      simp only [serStructFields]
      have hdep : (1 : Nat) ≤ (Formatter.endStructField
          (serValue printable floatText cfg v st).2).depth := by
        simp only [Formatter.endStructField]
        rw [serValue_depth]
        omega
      refine noTen_append (noTen_append
        (beginStructField_no_ten hcfg (fun s hs => by cases hs; exact hnl.1.1) hd) ?_) ?_
      · exact serValue_no_ten printable floatText cfg hcfg hFT v st hnl.1.2 hd
      · exact serStructFields_no_ten printable floatText cfg hcfg hFT rest _ hnl.2 hdep

end

theorem writeIndent_at_zero {cfg : Config} (hcfg : cfg.depthLimit = 0) :
    cfg.writeIndent 0 = [10] := by
  unfold Config.writeIndent
  rw [if_neg (by omega)]
  simp

theorem serSeqElements_nf_mono (pr : Char → Bool) (fT : Nat → List Nat) (cfg : Config) :
    ∀ (xs : List SerInput) (st : FmtState), st.notFirst = true →
      (serSeqElements pr fT cfg xs st).2.notFirst = true
  | [], _st => fun h => by
      simp only [serSeqElements]
      exact h
  | _x :: xs, _st => fun _h => by
      simp only [serSeqElements]
      exact serSeqElements_nf_mono pr fT cfg xs _ rfl

theorem serSeqElements_nf_cons (pr : Char → Bool) (fT : Nat → List Nat) (cfg : Config)
    (x : SerInput) (xs : List SerInput) (st : FmtState) :
    (serSeqElements pr fT cfg (x :: xs) st).2.notFirst = true := by
  simp only [serSeqElements]
  exact serSeqElements_nf_mono pr fT cfg xs _ rfl

theorem serTupleElements_nf_mono (pr : Char → Bool) (fT : Nat → List Nat) (cfg : Config) :
    ∀ (xs : List SerInput) (st : FmtState), st.notFirst = true →
      (serTupleElements pr fT cfg xs st).2.notFirst = true
  | [], _st => fun h => by
      simp only [serTupleElements]
      exact h
  | _x :: xs, _st => fun _h => by
      simp only [serTupleElements]
      exact serTupleElements_nf_mono pr fT cfg xs _ rfl

theorem serTupleElements_nf_cons (pr : Char → Bool) (fT : Nat → List Nat) (cfg : Config)
    (x : SerInput) (xs : List SerInput) (st : FmtState) :
    (serTupleElements pr fT cfg (x :: xs) st).2.notFirst = true := by
  simp only [serTupleElements]
  exact serTupleElements_nf_mono pr fT cfg xs _ rfl

theorem serMapEntries_nf_mono (pr : Char → Bool) (fT : Nat → List Nat) (cfg : Config) :
    ∀ (entries : List (SerInput × SerInput)) (st : FmtState), st.notFirst = true →
      (serMapEntries pr fT cfg entries st).2.notFirst = true
  | [], _st => fun h => by
      simp only [serMapEntries]
      exact h
  | (_k, _v) :: rest, _st => fun _h => by
      simp only [serMapEntries]
      exact serMapEntries_nf_mono pr fT cfg rest _ rfl

theorem serMapEntries_nf_cons (pr : Char → Bool) (fT : Nat → List Nat) (cfg : Config)
    (kv : SerInput × SerInput) (rest : List (SerInput × SerInput)) (st : FmtState) :
    (serMapEntries pr fT cfg (kv :: rest) st).2.notFirst = true := by
  obtain ⟨k, v⟩ := kv
  simp only [serMapEntries]
  exact serMapEntries_nf_mono pr fT cfg rest _ rfl

theorem serStructFields_nf_mono (pr : Char → Bool) (fT : Nat → List Nat) (cfg : Config) :
    ∀ (fields : List (List Char × SerInput)) (st : FmtState), st.notFirst = true →
      (serStructFields pr fT cfg fields st).2.notFirst = true
  | [], _st => fun h => by
      simp only [serStructFields]
      exact h
  | (_n, _v) :: rest, _st => fun _h => by
      simp only [serStructFields]
      exact serStructFields_nf_mono pr fT cfg rest _ rfl

theorem serStructFields_nf_cons (pr : Char → Bool) (fT : Nat → List Nat) (cfg : Config)
    (nv : List Char × SerInput) (rest : List (List Char × SerInput)) (st : FmtState) :
    (serStructFields pr fT cfg (nv :: rest) st).2.notFirst = true := by
  obtain ⟨n, v⟩ := nv
  simp only [serStructFields]
  exact serStructFields_nf_mono pr fT cfg rest _ rfl

theorem endStruct_shape {cfg : Config} (hcfg : cfg.depthLimit = 0) {st : FmtState}
    (hnf : st.notFirst = true) (hd : st.depth = 1) :
    (Formatter.endStruct cfg st).1 = [10, 41] := by
  unfold Formatter.endStruct
  rw [if_pos hnf, hd, writeIndent_at_zero hcfg]
  rfl

theorem endArray_shape {cfg : Config} (hcfg : cfg.depthLimit = 0) {st : FmtState}
    (hnf : st.notFirst = true) (hd : st.depth = 1) :
    (Formatter.endArray cfg st).1 = [10, 93] := by
  unfold Formatter.endArray
  rw [if_pos hnf, hd, writeIndent_at_zero hcfg]
  rfl

theorem endMap_shape {cfg : Config} (hcfg : cfg.depthLimit = 0) {st : FmtState}
    (hnf : st.notFirst = true) (hd : st.depth = 1) :
    (Formatter.endMap cfg st).1 = [10, 125] := by
  unfold Formatter.endMap
  rw [if_pos hnf, hd, writeIndent_at_zero hcfg]
  rfl

theorem beginStructField_first_zero {cfg : Config} (hcfg : cfg.depthLimit = 0)
    {st : FmtState} (hnf : st.notFirst = false) (hd : 1 ≤ st.depth) :
    Formatter.beginStructField cfg Option.none st = [] := by
  unfold Formatter.beginStructField
  rw [hnf, writeIndent_zero hcfg hd]
  rfl

/-- With `depth_limit = 0`, the render of any input (with newline-free names)
from the initial state either contains no newline at all, or is a newline-free
prefix followed by exactly one newline and the outermost closing bracket:
the single newline `write_indent` emits at the already-decremented depth 0
(`0 ≤ depth_limit`) before a non-empty container's closing bracket. -/
theorem render_zero_shape (pr : Char → Bool) (fT : Nat → List Nat) (cfg : Config)
    (hcfg : cfg.depthLimit = 0) (hFT : ∀ f, 10 ∉ fT f) :
    ∀ (x : SerInput), nlFreeNames x = true →
      10 ∉ render pr fT cfg x ∨
      ∃ A br, render pr fT cfg x = A ++ [10, br] ∧ 10 ∉ A ∧
        (br = 41 ∨ br = 93 ∨ br = 125)
  | .bool b => fun _ => .inl (by
      simp only [render, serValue]
      exact writeBool_no_ten b)
  | .i8 v => fun _ => .inl (by
      simp only [render, serValue]
      exact serializeI128Bytes_no_ten v)
  | .i16 v => fun _ => .inl (by
      simp only [render, serValue]
      exact serializeI128Bytes_no_ten v)
  | .i32 v => fun _ => .inl (by
      simp only [render, serValue]
      exact serializeI128Bytes_no_ten v)
  | .i64 v => fun _ => .inl (by
      simp only [render, serValue]
      exact serializeI128Bytes_no_ten v)
  | .i128 v => fun _ => .inl (by
      simp only [render, serValue]
      exact serializeI128Bytes_no_ten v)
  | .u8 v => fun _ => .inl (by
      simp only [render, serValue]
      exact writeUnsigned_no_ten ⟨v⟩)
  | .u16 v => fun _ => .inl (by
      simp only [render, serValue]
      exact writeUnsigned_no_ten ⟨v⟩)
  | .u32 v => fun _ => .inl (by
      simp only [render, serValue]
      exact writeUnsigned_no_ten ⟨v⟩)
  | .u64 v => fun _ => .inl (by
      simp only [render, serValue]
      exact writeUnsigned_no_ten ⟨v⟩)
  | .u128 v => fun _ => .inl (by
      simp only [render, serValue]
      exact writeUnsigned_no_ten ⟨v⟩)
  | .f64 bits => fun _ => .inl (by
      simp only [render, serValue, Formatter.writeFloat]
      exact hFT bits)
  | .char c => fun _ => .inl (by
      simp only [render, serValue]
      exact writeChar_no_ten pr c)
  | .str s => fun _ => .inl (by
      simp only [render, serValue]
      exact writeString_no_ten pr s)
  | .bytes bs => fun _ => .inl (by
      simp only [render, serValue]
      exact writeBytes_no_ten bs)
  | .none => fun _ => .inl (by
      simp only [render, serValue]
      exact writeUnit_no_ten fun s hs => by
        cases hs
        decide)
  | .unit => fun _ => .inl (by
      simp only [render, serValue]
      exact writeUnit_no_ten fun s hs => by cases hs)
  | .unitStruct name => fun hnl => .inl (by
      simp only [nlFreeNames] at hnl
      simp only [render, serValue]
      exact writeUnit_no_ten fun s hs => by
        cases hs
        exact hnl)
  | .unitVariant name _ variant => fun hnl => .inl (by
      simp only [nlFreeNames, Bool.and_eq_true] at hnl
      simp only [render, serValue]
      exact writeUnit_no_ten fun s hs => by
        cases hs
        exact hnl.2)
  | .newtypeStruct _ v => fun hnl => by
      simp only [nlFreeNames, Bool.and_eq_true] at hnl
      have h := render_zero_shape pr fT cfg hcfg hFT v hnl.2
      simp only [render, serValue] at h ⊢
      exact h
  | .some v => fun hnl => by
      simp only [nlFreeNames] at hnl
      right
      simp only [render, serValue]
      have hst1 : (Formatter.beginStruct (Option.some ('S' :: 'o' :: 'm' :: 'e' :: []))
          FmtState.init).2 = ⟨1, false⟩ := rfl
      rw [hst1]
      have ho2 := beginStructField_first_zero hcfg (rfl : (⟨1, false⟩ : FmtState).notFirst = false)
        (by norm_num : (1 : Nat) ≤ (⟨1, false⟩ : FmtState).depth)
      rw [ho2]
      have hdep : (serValue pr fT cfg v ⟨1, false⟩).2.depth = 1 :=
        serValue_depth pr fT cfg v ⟨1, false⟩
      have hend : (Formatter.endStruct cfg
          (Formatter.endStructField (serValue pr fT cfg v ⟨1, false⟩).2)).1 = [10, 41] :=
        endStruct_shape hcfg rfl (by simp [Formatter.endStructField, hdep])
      rw [hend]
      refine ⟨_, 41, rfl, ?_, by norm_num⟩
      refine noTen_append (noTen_append ?_ (by simp)) ?_
      · exact beginStruct_no_ten (fun s hs => by cases hs; decide) _
      · exact serValue_no_ten pr fT cfg hcfg hFT v _ hnl (by norm_num)
  | .newtypeVariant _ _ variant v => fun hnl => by
      simp only [nlFreeNames, Bool.and_eq_true] at hnl
      right
      simp only [render, serValue]
      have hst1 : (Formatter.beginStruct (Option.some variant) FmtState.init).2
          = ⟨1, false⟩ := rfl
      rw [hst1]
      have ho2 := beginStructField_first_zero hcfg (rfl : (⟨1, false⟩ : FmtState).notFirst = false)
        (by norm_num : (1 : Nat) ≤ (⟨1, false⟩ : FmtState).depth)
      rw [ho2]
      have hdep : (serValue pr fT cfg v ⟨1, false⟩).2.depth = 1 :=
        serValue_depth pr fT cfg v ⟨1, false⟩
      have hend : (Formatter.endStruct cfg
          (Formatter.endStructField (serValue pr fT cfg v ⟨1, false⟩).2)).1 = [10, 41] :=
        endStruct_shape hcfg rfl (by simp [Formatter.endStructField, hdep])
      rw [hend]
      refine ⟨_, 41, rfl, ?_, by norm_num⟩
      refine noTen_append (noTen_append ?_ (by simp)) ?_
      · exact beginStruct_no_ten (fun s hs => by cases hs; exact hnl.1.2) _
      · exact serValue_no_ten pr fT cfg hcfg hFT v _ hnl.2 (by norm_num)
  | .seq [] => fun _ => .inl (by
      simp [render, serValue, serSeqElements, Formatter.beginArray, Formatter.endArray,
        FmtState.init])
  | .seq (y :: ys) => fun hnl => by
      simp only [nlFreeNames] at hnl
      right
      simp only [render, serValue]
      have hst1 : (Formatter.beginArray FmtState.init).2 = ⟨1, false⟩ := rfl
      rw [hst1]
      have hdep : (serSeqElements pr fT cfg (y :: ys) ⟨1, false⟩).2.depth = 1 :=
        serSeqElements_depth pr fT cfg _ _
      have hend : (Formatter.endArray cfg
          (serSeqElements pr fT cfg (y :: ys) ⟨1, false⟩).2).1 = [10, 93] :=
        endArray_shape hcfg (serSeqElements_nf_cons pr fT cfg y ys _) hdep
      rw [hend]
      refine ⟨_, 93, rfl, ?_, by norm_num⟩
      refine noTen_append (by simp [Formatter.beginArray]) ?_
      exact serSeqElements_no_ten pr fT cfg hcfg hFT (y :: ys) _ hnl (by norm_num)
  | .tuple [] => fun _ => .inl (by
      simp [render, serValue, serTupleElements, Formatter.beginStruct, Formatter.endStruct,
        FmtState.init])
  | .tuple (y :: ys) => fun hnl => by
      simp only [nlFreeNames] at hnl
      right
      simp only [render, serValue]
      have hst1 : (Formatter.beginStruct Option.none FmtState.init).2 = ⟨1, false⟩ := rfl
      rw [hst1]
      have hdep : (serTupleElements pr fT cfg (y :: ys) ⟨1, false⟩).2.depth = 1 :=
        serTupleElements_depth pr fT cfg _ _
      have hend : (Formatter.endStruct cfg
          (serTupleElements pr fT cfg (y :: ys) ⟨1, false⟩).2).1 = [10, 41] :=
        endStruct_shape hcfg (serTupleElements_nf_cons pr fT cfg y ys _) hdep
      rw [hend]
      refine ⟨_, 41, rfl, ?_, by norm_num⟩
      refine noTen_append (beginStruct_no_ten (fun s hs => by cases hs) _) ?_
      exact serTupleElements_no_ten pr fT cfg hcfg hFT (y :: ys) _ hnl (by norm_num)
  | .tupleStruct name [] => fun hnl => .inl (by
      simp only [nlFreeNames, Bool.and_eq_true] at hnl
      simp only [render, serValue, serTupleElements]
      refine noTen_append (noTen_append
        (beginStruct_no_ten (fun s hs => by cases hs; exact hnl.1) _) (by simp)) ?_
      simp [Formatter.endStruct, Formatter.beginStruct, FmtState.init])
  | .tupleStruct name (y :: ys) => fun hnl => by
      simp only [nlFreeNames, Bool.and_eq_true] at hnl
      right
      simp only [render, serValue]
      have hst1 : (Formatter.beginStruct (Option.some name) FmtState.init).2
          = ⟨1, false⟩ := rfl
      rw [hst1]
      have hdep : (serTupleElements pr fT cfg (y :: ys) ⟨1, false⟩).2.depth = 1 :=
        serTupleElements_depth pr fT cfg _ _
      have hend : (Formatter.endStruct cfg
          (serTupleElements pr fT cfg (y :: ys) ⟨1, false⟩).2).1 = [10, 41] :=
        endStruct_shape hcfg (serTupleElements_nf_cons pr fT cfg y ys _) hdep
      rw [hend]
      refine ⟨_, 41, rfl, ?_, by norm_num⟩
      refine noTen_append (beginStruct_no_ten (fun s hs => by cases hs; exact hnl.1) _) ?_
      exact serTupleElements_no_ten pr fT cfg hcfg hFT (y :: ys) _ hnl.2 (by norm_num)
  | .tupleVariant _ _ variant [] => fun hnl => .inl (by
      simp only [nlFreeNames, Bool.and_eq_true] at hnl
      simp only [render, serValue, serTupleElements]
      refine noTen_append (noTen_append
        (beginStruct_no_ten (fun s hs => by cases hs; exact hnl.1.2) _) (by simp)) ?_
      simp [Formatter.endStruct, Formatter.beginStruct, FmtState.init])
  | .tupleVariant _ _ variant (y :: ys) => fun hnl => by
      simp only [nlFreeNames, Bool.and_eq_true] at hnl
      right
      simp only [render, serValue]
      have hst1 : (Formatter.beginStruct (Option.some variant) FmtState.init).2
          = ⟨1, false⟩ := rfl
      rw [hst1]
      have hdep : (serTupleElements pr fT cfg (y :: ys) ⟨1, false⟩).2.depth = 1 :=
        serTupleElements_depth pr fT cfg _ _
      have hend : (Formatter.endStruct cfg
          (serTupleElements pr fT cfg (y :: ys) ⟨1, false⟩).2).1 = [10, 41] :=
        endStruct_shape hcfg (serTupleElements_nf_cons pr fT cfg y ys _) hdep
      rw [hend]
      refine ⟨_, 41, rfl, ?_, by norm_num⟩
      refine noTen_append (beginStruct_no_ten (fun s hs => by cases hs; exact hnl.1.2) _) ?_
      exact serTupleElements_no_ten pr fT cfg hcfg hFT (y :: ys) _ hnl.2 (by norm_num)
  | .map [] => fun _ => .inl (by
      simp [render, serValue, serMapEntries, Formatter.beginMap, Formatter.endMap,
        FmtState.init])
  | .map (e :: rest) => fun hnl => by
      simp only [nlFreeNames] at hnl
      right
      simp only [render, serValue]
      have hst1 : (Formatter.beginMap FmtState.init).2 = ⟨1, false⟩ := rfl
      rw [hst1]
      have hdep : (serMapEntries pr fT cfg (e :: rest) ⟨1, false⟩).2.depth = 1 :=
        serMapEntries_depth pr fT cfg _ _
      have hend : (Formatter.endMap cfg
          (serMapEntries pr fT cfg (e :: rest) ⟨1, false⟩).2).1 = [10, 125] :=
        endMap_shape hcfg (serMapEntries_nf_cons pr fT cfg e rest _) hdep
      rw [hend]
      refine ⟨_, 125, rfl, ?_, by norm_num⟩
      refine noTen_append (by simp [Formatter.beginMap]) ?_
      exact serMapEntries_no_ten pr fT cfg hcfg hFT (e :: rest) _ hnl (by norm_num)
  | .struct name [] => fun hnl => .inl (by
      simp only [nlFreeNames, Bool.and_eq_true] at hnl
      simp only [render, serValue, serStructFields]
      refine noTen_append (noTen_append
        (beginStruct_no_ten (fun s hs => by cases hs; exact hnl.1) _) (by simp)) ?_
      simp [Formatter.endStruct, Formatter.beginStruct, FmtState.init])
  | .struct name (f :: rest) => fun hnl => by
      simp only [nlFreeNames, Bool.and_eq_true] at hnl
      right
      simp only [render, serValue]
      have hst1 : (Formatter.beginStruct (Option.some name) FmtState.init).2
          = ⟨1, false⟩ := rfl
      rw [hst1]
      have hdep : (serStructFields pr fT cfg (f :: rest) ⟨1, false⟩).2.depth = 1 :=
        serStructFields_depth pr fT cfg _ _
      have hend : (Formatter.endStruct cfg
          (serStructFields pr fT cfg (f :: rest) ⟨1, false⟩).2).1 = [10, 41] :=
        endStruct_shape hcfg (serStructFields_nf_cons pr fT cfg f rest _) hdep
      rw [hend]
      refine ⟨_, 41, rfl, ?_, by norm_num⟩
      refine noTen_append (beginStruct_no_ten (fun s hs => by cases hs; exact hnl.1) _) ?_
      exact serStructFields_no_ten pr fT cfg hcfg hFT (f :: rest) _ hnl.2 (by norm_num)
  | .structVariant _ _ variant [] => fun hnl => .inl (by
      simp only [nlFreeNames, Bool.and_eq_true] at hnl
      simp only [render, serValue, serStructFields]
      refine noTen_append (noTen_append
        (beginStruct_no_ten (fun s hs => by cases hs; exact hnl.1.2) _) (by simp)) ?_
      simp [Formatter.endStruct, Formatter.beginStruct, FmtState.init])
  | .structVariant _ _ variant (f :: rest) => fun hnl => by
      simp only [nlFreeNames, Bool.and_eq_true] at hnl
      right
      simp only [render, serValue]
      have hst1 : (Formatter.beginStruct (Option.some variant) FmtState.init).2
          = ⟨1, false⟩ := rfl
      rw [hst1]
      have hdep : (serStructFields pr fT cfg (f :: rest) ⟨1, false⟩).2.depth = 1 :=
        serStructFields_depth pr fT cfg _ _
      have hend : (Formatter.endStruct cfg
          (serStructFields pr fT cfg (f :: rest) ⟨1, false⟩).2).1 = [10, 41] :=
        endStruct_shape hcfg (serStructFields_nf_cons pr fT cfg f rest _) hdep
      rw [hend]
      refine ⟨_, 41, rfl, ?_, by norm_num⟩
      refine noTen_append (beginStruct_no_ten (fun s hs => by cases hs; exact hnl.1.2) _) ?_
      exact serStructFields_no_ten pr fT cfg hcfg hFT (f :: rest) _ hnl.2 (by norm_num)

/-- **C3** (corrected, amended claim).  With `depth_limit = 0`: the separator
emitted between two sibling elements is exactly one comma — the configured
space is suppressed (`write_space` writes only when `depth_limit > 0`), so it
is *not* comma-plus-space; no newline is ever emitted strictly inside a
container (any write at depth ≥ 1); and the whole rendered output contains no
newline except a single one immediately before the outermost closing bracket
of a non-empty container (`write_indent` runs at the decremented depth 0,
and `0 ≤ depth_limit` selects the newline branch).  Struct/variant/field
names are assumed newline-free, since names are emitted verbatim. -/
theorem C3_depth_limit_zero (printable : Char → Bool) (floatText : Nat → List Nat)
    (cfg : Config) (hcfg : cfg.depthLimit = 0) (hFT : ∀ f, 10 ∉ floatText f) :
    (∀ st : FmtState, st.notFirst = true → 1 ≤ st.depth →
      Formatter.beginArrayMember cfg st = [44] ∧
      Formatter.beginStructField cfg Option.none st = [44] ∧
      Formatter.beginMapKey cfg st = [44]) ∧
    (∀ (x : SerInput) (st : FmtState), nlFreeNames x = true → 1 ≤ st.depth →
      10 ∉ (serValue printable floatText cfg x st).1) ∧
    (∀ x : SerInput, nlFreeNames x = true →
      10 ∉ render printable floatText cfg x ∨
      ∃ A br, render printable floatText cfg x = A ++ [10, br] ∧ 10 ∉ A ∧
        (br = 41 ∨ br = 93 ∨ br = 125)) := by
  refine ⟨?_, serValue_no_ten printable floatText cfg hcfg hFT,
    render_zero_shape printable floatText cfg hcfg hFT⟩
  intro st hnf hd
  refine ⟨?_, ?_, ?_⟩
  · unfold Formatter.beginArrayMember
    rw [hnf, writeIndent_zero hcfg hd]
    rfl
  · unfold Formatter.beginStructField
    rw [hnf, writeIndent_zero hcfg hd]
    rfl
  · unfold Formatter.beginMapKey
    rw [hnf, writeIndent_zero hcfg hd]
    rfl

/-- Witness for C3 at a concrete configuration, state and input. -/
theorem C3_depth_limit_zero_witness :
    Formatter.beginArrayMember ⟨0, .spaces 4⟩ ⟨1, true⟩ = [44] ∧
    10 ∉ (serValue (fun _ => true) (fun _ => []) ⟨0, .spaces 4⟩ (.u32 1) ⟨1, false⟩).1 := by
  have h := C3_depth_limit_zero (fun _ => true) (fun _ => []) ⟨0, .spaces 4⟩ rfl
    (fun f => by simp)
  exact ⟨(h.1 ⟨1, true⟩ rfl (by norm_num)).1,
    h.2.1 (.u32 1) ⟨1, false⟩ rfl (by norm_num)⟩

/-- **C3 counterexample**: rendering `[1u32, 2u32]` with `depth_limit = 0`
produces `[1,2\n]` — it contains a newline (before the outermost closing
bracket), and it differs from `[1, 2]`, the output the claimed
comma-plus-space separator would give. -/
theorem C3_depth_limit_zero_counterexample :
    render (fun _ => true) (fun _ => []) ⟨0, .spaces 4⟩ (.seq [.u32 1, .u32 2]) =
      asciiBytes "[1,2\n]" ∧
    (10 : Nat) ∈ render (fun _ => true) (fun _ => []) ⟨0, .spaces 4⟩
      (.seq [.u32 1, .u32 2]) ∧
    render (fun _ => true) (fun _ => []) ⟨0, .spaces 4⟩ (.seq [.u32 1, .u32 2]) ≠
      asciiBytes "[1, 2]" := by
  refine ⟨?_, ?_, ?_⟩ <;>
    simp [render, serValue, serSeqElements, Formatter.beginArray, Formatter.endArray,
      Formatter.beginArrayMember, Formatter.endArrayMember, Formatter.writeUnsigned,
      Config.writeIndent, Config.writeSpace, Indent.bytes, FmtState.init, asciiBytes,
      utf8Encode, utf8EncodeChar, decimalBytes, String.data]

end Ron
